import Mathlib

/-!
Verification development for the template store and search subsystem of the
Image-Prompt-Constructor repository (the store in `src/unnamed/part_001` /
`src/services/templatesStore.ts` and the search module in
`src/services/search/`).

Modelling conventions (shallow embedding):
* JavaScript strings are modelled as `List Char` (`Str`).  String lengths are
  therefore counted in Unicode code points; JavaScript counts UTF-16 code
  units, and the two agree on all characters of the Basic Multilingual Plane.
* `String.prototype.toLowerCase` is modelled as the ASCII letter mapping
  (identity on every other character), and `normalize("NFKC")` as the
  identity, which it is on ASCII text.
* JS `Map`/`Set` are modelled either as functions into `Option` (the store's
  incremental index, where only pointwise state matters) or as association
  lists / ordered lists (the search module, which iterates keys in insertion
  order).  A JS `Set` is an order-preserving duplicate-free list.
* `Array.prototype.sort` is modelled by a stable insertion sort
  (`sortStable`), matching the stable-sort semantics required of JS engines.
* The SHA-256 digest inside `computeSignature` is an abstract parameter
  `h : Str → Str`: every theorem about signatures is proved for an arbitrary
  digest function.  `JSON.parse` is likewise abstracted into a pre-parsed
  outcome (`ParseOutcome`), and `crypto.randomUUID()` / `Date.now()` are
  explicit parameters.
-/

namespace IPC

/-- JavaScript strings, modelled as lists of characters. -/
abbrev Str := List Char

/-- The character class matched by `\s` in a JavaScript regular expression
(ASCII whitespace plus the Unicode whitespace code points). -/
def isWsChar (c : Char) : Bool :=
  c = ' ' || c = '\t' || c = '\n' || c = '\r' || c = '\x0b' || c = '\x0c' ||
  c.toNat = 0xa0 || c.toNat = 0x1680 ||
  (0x2000 ≤ c.toNat && c.toNat ≤ 0x200a) ||
  c.toNat = 0x2028 || c.toNat = 0x2029 || c.toNat = 0x202f ||
  c.toNat = 0x205f || c.toNat = 0x3000 || c.toNat = 0xfeff

/-- The ASCII upper/lower case letter table used to model
`String.prototype.toLowerCase` (identity outside ASCII letters). -/
def upperLowerPairs : List (Char × Char) :=
  [('A','a'),('B','b'),('C','c'),('D','d'),('E','e'),('F','f'),('G','g'),
   ('H','h'),('I','i'),('J','j'),('K','k'),('L','l'),('M','m'),('N','n'),
   ('O','o'),('P','p'),('Q','q'),('R','r'),('S','s'),('T','t'),('U','u'),
   ('V','v'),('W','w'),('X','x'),('Y','y'),('Z','z')]

/-- Single-character lower-casing (model of `toLowerCase` per character). -/
def toLowerCh (c : Char) : Char :=
  ((upperLowerPairs.find? (fun p => p.1 = c)).map (fun p => p.2)).getD c

/-- Model of `s.toLowerCase()`. -/
def toLowerStr (s : Str) : Str := s.map toLowerCh

/-- Splitting a string at every separator character, keeping empty segments —
the behaviour of `String.prototype.split` on a one-character-class regex
applied greedily (`/X+/` = runs of separators) is recovered by filtering out
the empty segments afterwards. -/
def splitRuns (sep : Char → Bool) : Str → List Str
  | [] => [[]]
  | c :: cs =>
    let r := splitRuns sep cs
    if sep c then [] :: r
    else
      match r with
      | [] => [[c]]
      | w :: ws => (c :: w) :: ws

/-- The maximal non-separator runs of a string (= `split(/sep+/)` with the
empty artefacts removed, which the sources always do via `filter(Boolean)`
or `filter(w => w)`). -/
def wordsOf (sep : Char → Bool) (s : Str) : List Str :=
  (splitRuns sep s).filter (fun w => !w.isEmpty)

/-- Joining word lists with single spaces (model of `Array.join(" ")` on a
list that contains no empty entries). -/
def joinWords : List Str → Str
  | [] => []
  | [w] => w
  | w :: w2 :: ws => w ++ ' ' :: joinWords (w2 :: ws)

/-- `const singleSpace = (s) => s.replace(/\s+/g, " ").trim();`
(collapse every whitespace run to one space and trim the ends — equivalently,
join the whitespace-separated words with single spaces). -/
def singleSpace (s : Str) : Str := joinWords (wordsOf isWsChar s)

/-- `String.prototype.trim` (strip leading and trailing whitespace). -/
def trimStr (s : Str) : Str :=
  ((s.dropWhile isWsChar).reverse.dropWhile isWsChar).reverse

/-- `const lower = (s?) => (s ? singleSpace(s).toLowerCase() : "");`
`none` models `undefined`; the empty string is falsy in JS. -/
def lower (s : Option Str) : Str :=
  match s with
  | none => []
  | some v => if v.isEmpty then [] else toLowerStr (singleSpace v)

/-- JS `a || b` on strings: `b` when `a` is absent or empty. -/
def jsOrStr (o : Option Str) (d : Str) : Str :=
  match o with
  | none => d
  | some s => if s.isEmpty then d else s

/-- JS `a || b` on plain (non-optional) strings. -/
def jsOrS (s d : Str) : Str := if s.isEmpty then d else s

/-- JS `a || b` on optional numbers (`0` is falsy). -/
def jsOrNat (o : Option Nat) (d : Nat) : Nat :=
  match o with
  | none => d
  | some 0 => d
  | some n => n

/-- Boolean string-order test (JS default `sort()` comparator on strings:
lexicographic). -/
def strLe : Str → Str → Bool
  | [], _ => true
  | _ :: _, [] => false
  | a :: as, b :: bs => if a = b then strLe as bs else decide (a < b)

/-- Boolean starts-with test. -/
def startsWithB : Str → Str → Bool
  | [], _ => true
  | _ :: _, [] => false
  | a :: as, b :: bs => a = b && startsWithB as bs

/-- Boolean substring test (model of `String.prototype.includes`). -/
def containsB : Str → Str → Bool
  | [], needle => needle.isEmpty
  | c :: t, needle => startsWithB needle (c :: t) || containsB t needle

/-- First-occurrence deduplication with an accumulator of already-seen
elements (model of `[...new Set(list)]`). -/
def dedupAux {α : Type} [DecidableEq α] (seen : List α) : List α → List α
  | [] => []
  | x :: xs => if x ∈ seen then dedupAux seen xs else x :: dedupAux (x :: seen) xs

/-- `[...new Set(list)]`: deduplicate keeping the first occurrence of each
element, preserving encounter order. -/
def dedupKeepFirst {α : Type} [DecidableEq α] (l : List α) : List α := dedupAux [] l

/-- `Set.prototype.add` on an insertion-ordered duplicate-free list. -/
def setAdd {α : Type} [DecidableEq α] (s : List α) (v : α) : List α :=
  if v ∈ s then s else s ++ [v]

/-- One step of stable insertion: the new element goes after every existing
element that may precede it. -/
def ins {α : Type} (le : α → α → Bool) (x : α) : List α → List α
  | [] => [x]
  | y :: ys => if le y x then y :: ins le x ys else x :: y :: ys

/-- Stable sort (model of `Array.prototype.sort`, which JS requires to be
stable); `le a b` means `a` may be placed before `b`. -/
def sortStable {α : Type} (le : α → α → Bool) (l : List α) : List α :=
  l.foldl (fun acc x => ins le x acc) []

/-- Inclusive character-range test used by the tokenizer regexes. -/
def charBetween (lo hi c : Char) : Bool := lo ≤ c && c ≤ hi

/-- ASCII word characters, the complement of `\W` in a JS regex. -/
def isWordChar (c : Char) : Bool :=
  charBetween 'a' 'z' c || charBetween 'A' 'Z' c ||
  charBetween '0' '9' c || c = '_'

/-- Lower-case ASCII alphanumerics, the complement of the services
tokenizer's separator class `[^a-z0-9]`. -/
def isLowerAlnum (c : Char) : Bool :=
  charBetween 'a' 'z' c || charBetween '0' '9' c

namespace Store

/-- The stopword set of the store's tokenizer (`src/unnamed/part_001`). -/
def STOPWORDS : List Str :=
  (["a","an","the","in","on","of","for","with","by","as","is","are","was",
    "were","to","and","it","from","or","at","i","you","he","she","we",
    "they"].map String.data)

/-- The store's tokenizer (`src/unnamed/part_001`):
`text.toLowerCase().split(/\W+/)` filtered of empties and stopwords, then
deduplicated via `Set`. -/
def tokenize (text : Str) : List Str :=
  dedupKeepFirst
    ((wordsOf (fun c => !isWordChar c) (toLowerStr text)).filter
      (fun t => !t.isEmpty && !decide (t ∈ STOPWORDS)))

end Store

namespace Search

/-- The stopword set of the search module (`src/services/search/tokenize.ts`). -/
def STOP : List Str :=
  (["the","a","an","and","or","to","of","in","on","for","with","at","by",
    "from","as","is"].map String.data)

/-- The services tokenizer (`src/services/search/tokenize.ts`): lowercase,
NFKC-normalize (identity on ASCII), collapse whitespace, split on
`[^a-z0-9]+`, drop empties and stopwords, deduplicate. -/
def tokenize (o : Option Str) : List Str :=
  match o with
  | none => []
  | some s =>
    if s.isEmpty then []
    else
      dedupKeepFirst
        ((wordsOf (fun c => !isLowerAlnum c)
            (trimStr (joinWords (wordsOf isWsChar (toLowerStr s))))).filter
          (fun w => !decide (w ∈ STOP)))

end Search

/-- Tri-level lint grade. -/
inductive Quality
  | Green
  | Amber
  | Red
deriving DecidableEq, Repr

/-- A full stored template record (`Template` in `types.ts`, with the later
fields `renderSuccessCount`, `quality`, `variantOf` used by
`src/unnamed/part_001`).  `quality` is optional in the source (`quality?`),
and the stores guard reads with `|| "Amber"` / default weights. -/
structure Template where
  id : Str
  name : Str
  subject : Str
  action : Str
  environment : Str
  style : Str
  lighting : Str
  camera : Str
  category : Str
  tags : List Str
  favorite : Bool
  pinned : Bool
  usageCount : Nat
  renderSuccessCount : Nat
  lastUsed : Nat
  createdAt : Nat
  updatedAt : Nat
  signature : Str
  quality : Option Quality
  thumbnail : Option Str
  variantOf : Option Str
deriving DecidableEq, Repr

/-- `Partial<Template>` — every field optional (`none` = absent/undefined). -/
structure Patch where
  id : Option Str := none
  name : Option Str := none
  subject : Option Str := none
  action : Option Str := none
  environment : Option Str := none
  style : Option Str := none
  lighting : Option Str := none
  camera : Option Str := none
  category : Option Str := none
  tags : Option (List Str) := none
  favorite : Option Bool := none
  pinned : Option Bool := none
  usageCount : Option Nat := none
  renderSuccessCount : Option Nat := none
  lastUsed : Option Nat := none
  createdAt : Option Nat := none
  updatedAt : Option Nat := none
  signature : Option Str := none
  quality : Option Quality := none
  thumbnail : Option Str := none
  variantOf : Option Str := none
deriving DecidableEq, Repr

/-- The JS spread `{...t}` of a template, viewed as a `Partial<Template>`. -/
def templateToPatch (t : Template) : Patch :=
  { id := some t.id, name := some t.name, subject := some t.subject,
    action := some t.action, environment := some t.environment,
    style := some t.style, lighting := some t.lighting,
    camera := some t.camera, category := some t.category,
    tags := some t.tags, favorite := some t.favorite,
    pinned := some t.pinned, usageCount := some t.usageCount,
    renderSuccessCount := some t.renderSuccessCount,
    lastUsed := some t.lastUsed, createdAt := some t.createdAt,
    updatedAt := some t.updatedAt, signature := some t.signature,
    quality := t.quality, thumbnail := t.thumbnail,
    variantOf := t.variantOf }

/-- The JS spread `{...t, ...p}` of a template and a partial patch. -/
def applyPatch (t : Template) (p : Patch) : Template :=
  { id := p.id.getD t.id, name := p.name.getD t.name,
    subject := p.subject.getD t.subject, action := p.action.getD t.action,
    environment := p.environment.getD t.environment,
    style := p.style.getD t.style, lighting := p.lighting.getD t.lighting,
    camera := p.camera.getD t.camera, category := p.category.getD t.category,
    tags := p.tags.getD t.tags, favorite := p.favorite.getD t.favorite,
    pinned := p.pinned.getD t.pinned,
    usageCount := p.usageCount.getD t.usageCount,
    renderSuccessCount := p.renderSuccessCount.getD t.renderSuccessCount,
    lastUsed := p.lastUsed.getD t.lastUsed,
    createdAt := p.createdAt.getD t.createdAt,
    updatedAt := p.updatedAt.getD t.updatedAt,
    signature := p.signature.getD t.signature,
    quality := match p.quality with | some v => some v | none => t.quality,
    thumbnail := match p.thumbnail with | some v => some v | none => t.thumbnail,
    variantOf := match p.variantOf with | some v => some v | none => t.variantOf }

/-- The canonical content fields returned by `normalizeTemplate`. -/
structure Canonical where
  name : Str
  subject : Str
  action : Str
  environment : Str
  style : Str
  lighting : Str
  camera : Str
  category : Str
  tags : List Str
deriving DecidableEq, Repr

/-- `normalizeTemplate` (`src/unnamed/part_001`, identical in
`src/services/templatesStore.ts`): collapse whitespace in `name` (case
preserved), lowercase-and-collapse the six prompt fields and `category`
(defaulting `category` to "uncategorized" when absent or empty), and map
tags through `lower`, deduplicate, keep the first 10. -/
def normalizeTemplate (input : Patch) : Canonical :=
  { name := singleSpace (input.name.getD [])
    subject := lower input.subject
    action := lower input.action
    environment := lower input.environment
    style := lower input.style
    lighting := lower input.lighting
    camera := lower input.camera
    category := lower (some (jsOrStr input.category "uncategorized".data))
    tags := (dedupKeepFirst ((input.tags.getD []).map (fun t => lower (some t)))).take 10 }

/-- Re-feeding a canonical record into `normalizeTemplate` (its output type
is exactly the content-field record, so all content fields are present). -/
def canonicalToPatch (c : Canonical) : Patch :=
  { name := some c.name, subject := some c.subject, action := some c.action,
    environment := some c.environment, style := some c.style,
    lighting := some c.lighting, camera := some c.camera,
    category := some c.category, tags := some c.tags }

/-- `TemplateValidationInput = Partial<PromptData & {name}>`. -/
structure VInput where
  name : Option Str := none
  subject : Option Str := none
  action : Option Str := none
  environment : Option Str := none
  style : Option Str := none
  lighting : Option Str := none
  camera : Option Str := none
deriving DecidableEq, Repr

/-- Viewing a canonical record as a validation input (all fields present). -/
def canonicalToVInput (c : Canonical) : VInput :=
  { name := some c.name, subject := some c.subject, action := some c.action,
    environment := some c.environment, style := some c.style,
    lighting := some c.lighting, camera := some c.camera }

/-- `const req = (s?) => !!s && s.trim().length > 0;` -/
def req (s : Option Str) : Bool :=
  match s with
  | none => false
  | some v => !v.isEmpty && !(trimStr v).isEmpty

/-- The result record of `validateTemplate`. -/
structure VResult where
  ok : Bool
  issues : List String
  quality : Quality
deriving DecidableEq, Repr

/-- `[a, b, ...].filter(Boolean).join(" ")` over optional strings: drop the
absent and empty ones, join the rest with single spaces. -/
def joinTruthy (l : List (Option Str)) : Str :=
  joinWords ((l.filterMap id).filter (fun s => !s.isEmpty))

/-- `input.name!.trim().length` (0 when the name is absent, matching the
`?? 0` in the source's red-grade recomputation). -/
def vNameLen (input : VInput) : Nat := (trimStr (input.name.getD [])).length

/-- `input.subject!.trim().length` (0 when absent). -/
def vSubjLen (input : VInput) : Nat := (trimStr (input.subject.getD [])).length

/-- The name rule: required, 3–60 trimmed characters. -/
def vNameBad (input : VInput) : Bool :=
  !req input.name || decide (vNameLen input < 3) || decide (vNameLen input > 60)

/-- The subject rule: required, at most 300 trimmed characters. -/
def vSubjBad (input : VInput) : Bool :=
  !req input.subject || decide (vSubjLen input > 300)

/-- The number of filled descriptive fields. -/
def vFilled (input : VInput) : Nat :=
  ([input.subject, input.action, input.environment,
    input.style, input.lighting, input.camera].filter req).length

/-- The concatenated lowercased prompt text the lint rules scan. -/
def vText (input : VInput) : Str :=
  toLowerStr (joinTruthy [input.subject, input.action, input.environment,
                          input.style, input.lighting, input.camera])

/-- Double-intensifier detection (AMBER-level). -/
def vIntens (input : VInput) : Bool :=
  containsB (vText input) "very very".data ||
  containsB (vText input) "ultra ultra".data

/-- Contradictory-lighting detection (RED-level). -/
def vContra (input : VInput) : Bool :=
  containsB (vText input) "soft studio lighting".data &&
  containsB (vText input) "high contrast".data

/-- The issue list accumulated by `validateTemplate`, in source order. -/
def vIssues (input : VInput) : List String :=
  (if vNameBad input then ["name: 3-60 chars required"] else []) ++
  (if vSubjBad input then ["subject: required, at most 300 chars"] else []) ++
  (if vFilled input < 4 then ["at least 4 descriptive fields required"] else []) ++
  (if vIntens input then ["remove double intensifiers"] else []) ++
  (if vContra input then ["lighting contradiction"] else [])

/-- The red-grade condition of `validateTemplate`. -/
def vIsRed (input : VInput) : Bool :=
  vNameBad input || vSubjBad input || decide (vFilled input < 4) || vContra input

/-- `validateTemplate` (`src/unnamed/part_001` lines 681–711): name length
3–60 trimmed, subject required and ≤ 300, at least 4 of the 6 prompt fields
filled, "soft studio lighting" + "high contrast" is a contradiction (RED),
double intensifiers are an AMBER-level issue.  RED if any red rule fires;
else AMBER if any issue (including the stylistic one); else GREEN; `ok` iff
not RED. -/
def validateTemplate (input : VInput) : VResult :=
  let issues := vIssues input
  let quality := if vIsRed input then Quality.Red
                 else if !issues.isEmpty then Quality.Amber else Quality.Green
  ⟨quality ≠ Quality.Red, issues, quality⟩

/-- Hex digit for JSON `\u00XX` escapes (digits, then lower-case letters,
as emitted by `JSON.stringify`). -/
def hexDigit (n : Nat) : Char :=
  if n < 10 then Char.ofNat (n + 48) else Char.ofNat (n + 87)

/-- JSON escaping of one character, as produced by `JSON.stringify`. -/
def jsonEscapeChar (c : Char) : Str :=
  if c = '"' then ['\\', '"']
  else if c = '\\' then ['\\', '\\']
  else if c = '\n' then ['\\', 'n']
  else if c = '\r' then ['\\', 'r']
  else if c = '\t' then ['\\', 't']
  else if c = '\x08' then ['\\', 'b']
  else if c = '\x0c' then ['\\', 'f']
  else if c.toNat < 0x20 then
    ['\\', 'u', '0', '0', hexDigit (c.toNat / 16), hexDigit (c.toNat % 16)]
  else [c]

/-- A JSON string literal. -/
def jsonStrLit (s : Str) : Str :=
  '"' :: (s.foldr (fun c acc => jsonEscapeChar c ++ acc) []) ++ ['"']

/-- One `"key":"value"` member of the signature payload object. -/
def jsonMember (key : Str) (value : Str) : Str :=
  jsonStrLit key ++ ':' :: jsonStrLit value

/-- `JSON.stringify` of the signature payload object with its keys in sorted
order (`action, camera, category, environment, lighting, name, style,
subject` — the alphabetical order produced by `Object.keys(...).sort()`). -/
def signaturePayload (c : Canonical) : Str :=
  '{' :: (jsonMember "action".data c.action ++ ',' ::
          jsonMember "camera".data c.camera ++ ',' ::
          jsonMember "category".data c.category ++ ',' ::
          jsonMember "environment".data c.environment ++ ',' ::
          jsonMember "lighting".data c.lighting ++ ',' ::
          jsonMember "name".data c.name ++ ',' ::
          jsonMember "style".data c.style ++ ',' ::
          jsonMember "subject".data c.subject) ++ ['}']

/-- `computeSignature` (`src/unnamed/part_001` lines 727–752): canonicalize,
build the 8-field payload (tags deliberately excluded), serialize with sorted
keys, digest.  The SHA-256-and-hex-render step is the abstract digest
parameter `h`. -/
def computeSignature (h : Str → Str) (templateData : Patch) : Str :=
  h (signaturePayload (normalizeTemplate templateData))

/-- Result status of `upsertTemplate`. -/
inductive UpsertStatus
  | created
  | updated
deriving DecidableEq, Repr

/-- The value returned by `upsertTemplate`, together with the store contents
it persists (`saveAllTemplates` is modelled by returning the new list). -/
structure UpsertOut where
  status : UpsertStatus
  template : Template
  store : List Template
deriving DecidableEq, Repr

/-- `newTemplates[existingIndex] = updatedTemplate`: replace the record at
the first index satisfying `p` (the index found by `findIndex`). -/
def replaceFirst (p : Template → Bool) (upd : Template) : List Template → List Template
  | [] => []
  | t :: ts => if p t then upd :: ts else t :: replaceFirst p upd ts

/-- `upsertTemplate` (`src/unnamed/part_001` lines 906–965).  `h` is the
abstract digest, `newId` models `crypto.randomUUID()`, `now` models
`Date.now()`.  If no record carries the computed signature a fresh record
with zeroed usage counters is appended; otherwise the first such record is
merged: canonical fields overwritten, tags unioned, sorted and capped at 10,
`id`/`createdAt`/usage counters preserved, `updatedAt` bumped. -/
def upsertTemplate (h : Str → Str) (newId : Str) (now : Nat) (data : Patch)
    (templates : List Template) : UpsertOut :=
  let canonical := normalizeTemplate data
  let signature := computeSignature h data
  let validation := validateTemplate (canonicalToVInput canonical)
  match templates.find? (fun t => decide (t.signature = signature)) with
  | none =>
    let newTemplate : Template :=
      { id := newId, name := canonical.name, subject := canonical.subject,
        action := canonical.action, environment := canonical.environment,
        style := canonical.style, lighting := canonical.lighting,
        camera := canonical.camera, category := canonical.category,
        tags := canonical.tags,
        favorite := data.favorite.getD false, pinned := data.pinned.getD false,
        usageCount := 0, renderSuccessCount := 0, lastUsed := 0,
        createdAt := now, updatedAt := now, signature := signature,
        quality := some validation.quality, thumbnail := data.thumbnail,
        variantOf := data.variantOf }
    ⟨.created, newTemplate, templates ++ [newTemplate]⟩
  | some existing =>
    let mergedTags :=
      (sortStable strLe (dedupKeepFirst (existing.tags ++ canonical.tags))).take 10
    let updatedTemplate : Template :=
      { existing with
        name := canonical.name, subject := canonical.subject,
        action := canonical.action, environment := canonical.environment,
        style := canonical.style, lighting := canonical.lighting,
        camera := canonical.camera, category := canonical.category,
        tags := mergedTags, updatedAt := now,
        thumbnail := match data.thumbnail with
                     | some v => some v
                     | none => existing.thumbnail,
        quality := some validation.quality,
        variantOf := match data.variantOf with
                     | some v => some v
                     | none => existing.variantOf }
    ⟨.updated, updatedTemplate,
      replaceFirst (fun t => decide (t.signature = signature)) updatedTemplate templates⟩

/-- `Partial<Omit<Template, 'id' | 'createdAt'>>` — the patch type accepted
by `updateTemplate`: `id` and `createdAt` cannot occur in it. -/
structure UpdPatch where
  name : Option Str := none
  subject : Option Str := none
  action : Option Str := none
  environment : Option Str := none
  style : Option Str := none
  lighting : Option Str := none
  camera : Option Str := none
  category : Option Str := none
  tags : Option (List Str) := none
  favorite : Option Bool := none
  pinned : Option Bool := none
  usageCount : Option Nat := none
  renderSuccessCount : Option Nat := none
  lastUsed : Option Nat := none
  updatedAt : Option Nat := none
  signature : Option Str := none
  quality : Option Quality := none
  thumbnail : Option Str := none
  variantOf : Option Str := none
deriving DecidableEq, Repr

/-- Widening an `UpdPatch` to a `Partial<Template>` (no `id`/`createdAt`). -/
def updPatchToPatch (p : UpdPatch) : Patch :=
  { name := p.name, subject := p.subject, action := p.action,
    environment := p.environment, style := p.style, lighting := p.lighting,
    camera := p.camera, category := p.category, tags := p.tags,
    favorite := p.favorite, pinned := p.pinned,
    usageCount := p.usageCount, renderSuccessCount := p.renderSuccessCount,
    lastUsed := p.lastUsed, updatedAt := p.updatedAt,
    signature := p.signature, quality := p.quality,
    thumbnail := p.thumbnail, variantOf := p.variantOf }

/-- The spread `{...old, ...canonical, ...updates}` used by the update
paths: canonical content fields overwrite the old record, then every field
present in the raw patch overwrites again. -/
def spreadUpdate (old : Template) (c : Canonical) (p : Patch) : Template :=
  { id := p.id.getD old.id,
    name := p.name.getD c.name, subject := p.subject.getD c.subject,
    action := p.action.getD c.action,
    environment := p.environment.getD c.environment,
    style := p.style.getD c.style, lighting := p.lighting.getD c.lighting,
    camera := p.camera.getD c.camera, category := p.category.getD c.category,
    tags := p.tags.getD c.tags,
    favorite := p.favorite.getD old.favorite,
    pinned := p.pinned.getD old.pinned,
    usageCount := p.usageCount.getD old.usageCount,
    renderSuccessCount := p.renderSuccessCount.getD old.renderSuccessCount,
    lastUsed := p.lastUsed.getD old.lastUsed,
    createdAt := p.createdAt.getD old.createdAt,
    updatedAt := p.updatedAt.getD old.updatedAt,
    signature := p.signature.getD old.signature,
    quality := match p.quality with | some v => some v | none => old.quality,
    thumbnail := match p.thumbnail with | some v => some v | none => old.thumbnail,
    variantOf := match p.variantOf with | some v => some v | none => old.variantOf }

/-- `updateTemplate` (`src/unnamed/part_001` lines 967–1000): find the
record by id, merge the patch, re-canonicalize, re-sign, re-validate, build
`{...old, ...canonical, ...updates, signature, updatedAt: now, quality}` and
replace it at its index.  Returns `none` when the id is absent. -/
def updateTemplate (h : Str → Str) (id : Str) (updates : UpdPatch) (now : Nat)
    (templates : List Template) : Option (Template × List Template) :=
  match templates.find? (fun t => decide (t.id = id)) with
  | none => none
  | some oldTemplate =>
    let base := applyPatch oldTemplate (updPatchToPatch updates)
    let canonical := normalizeTemplate (templateToPatch base)
    let signature := computeSignature h (templateToPatch base)
    let validation := validateTemplate (canonicalToVInput canonical)
    let updatedTemplate :=
      { spreadUpdate oldTemplate canonical (updPatchToPatch updates) with
        signature := signature, updatedAt := now,
        quality := some validation.quality }
    some (updatedTemplate,
          replaceFirst (fun t => decide (t.id = id)) updatedTemplate templates)

/-- `updateManyTemplates` (`src/unnamed/part_001` lines 1192–1225): apply
the same `Partial<Template>` patch to every record whose id is selected —
note that this patch type does include `id` and `createdAt`.  Each affected
record is re-canonicalized, re-signed, re-validated, and gets
`updatedAt := now`. -/
def updateManyTemplates (h : Str → Str) (ids : List Str) (updates : Patch)
    (now : Nat) (templates : List Template) : List Template :=
  templates.map (fun t =>
    if decide (t.id ∈ ids) then
      let base := applyPatch t updates
      let canonical := normalizeTemplate (templateToPatch base)
      let signature := computeSignature h (templateToPatch base)
      let validation := validateTemplate (canonicalToVInput canonical)
      { spreadUpdate t canonical updates with
        signature := signature, updatedAt := now,
        quality := some validation.quality }
    else t)

/-- The outcome of `JSON.parse` on the import payload, abstracted: the parse
threw, or produced a non-array value, or produced an array of records
(`none` entries model `null`/non-object array members). -/
inductive ParseOutcome
  | failure (msg : String)
  | nonArray
  | arr (records : List (Option Patch))
deriving DecidableEq, Repr

/-- The summary record returned by `importTemplates`. -/
structure ImportSummary where
  success : Bool
  message : String
  importedCount : Nat
deriving DecidableEq, Repr

/-- Building the stored record for one imported entry:
`{...t, ...canonical, id: t.id || uuid, ..., createdAt: t.createdAt || now,
updatedAt: now, signature, quality}`. -/
def importRecordToTemplate (genId : Str) (now : Nat) (t : Patch)
    (signature : Str) : Template :=
  let canonical := normalizeTemplate t
  let validation := validateTemplate (canonicalToVInput canonical)
  { id := jsOrStr t.id genId,
    name := canonical.name, subject := canonical.subject,
    action := canonical.action, environment := canonical.environment,
    style := canonical.style, lighting := canonical.lighting,
    camera := canonical.camera, category := canonical.category,
    tags := canonical.tags,
    favorite := t.favorite.getD false, pinned := t.pinned.getD false,
    usageCount := jsOrNat t.usageCount 0,
    renderSuccessCount := jsOrNat t.renderSuccessCount 0,
    lastUsed := jsOrNat t.lastUsed 0,
    createdAt := jsOrNat t.createdAt now, updatedAt := now,
    signature := signature, quality := some validation.quality,
    thumbnail := t.thumbnail, variantOf := t.variantOf }

/-- The import loop: skip `null` records and records whose `subject` is
absent or empty (`!t || !t.subject`), skip records whose signature is
already known, otherwise emit the record and remember its signature. -/
def importLoop (h : Str → Str) (genId : Str) (now : Nat) :
    List (Option Patch) → List Str → List Template
  | [], _ => []
  | none :: rest, sigs => importLoop h genId now rest sigs
  | some t :: rest, sigs =>
    if (t.subject.getD []).isEmpty then importLoop h genId now rest sigs
    else
      let signature := computeSignature h t
      if signature ∈ sigs then importLoop h genId now rest sigs
      else importRecordToTemplate genId now t signature ::
           importLoop h genId now rest (signature :: sigs)

/-- The body of `importTemplates` up to its `catch`: the `throw` on a
non-array payload (and a `JSON.parse` failure) is an `Except.error`. -/
def importTemplatesE (h : Str → Str) (genId : Str) (now : Nat)
    (existingTemplates : List Template) (parsed : ParseOutcome) :
    Except String ImportSummary :=
  match parsed with
  | .failure msg => .error msg
  | .nonArray => .error "Imported file is not a valid template array."
  | .arr incomingTemplates =>
    let existingSignatures := existingTemplates.map (fun t => t.signature)
    let newTemplates := importLoop h genId now incomingTemplates existingSignatures
    let importedCount := newTemplates.length
    let skippedCount := incomingTemplates.length - importedCount
    let message :=
      toString importedCount ++ " templates imported successfully." ++
      (if skippedCount > 0 then
        " " ++ toString skippedCount ++
        " templates were skipped due to missing fields or being duplicates."
       else "")
    .ok ⟨true, message, importedCount⟩

/-- `importTemplates` (`src/unnamed/part_001` lines 1052–1108): the whole
body runs inside `try/catch`, so every outcome — including a payload that
fails to parse or is not an array — is returned as a summary record, never
rethrown. -/
def importTemplates (h : Str → Str) (genId : Str) (now : Nat)
    (existingTemplates : List Template) (parsed : ParseOutcome) : ImportSummary :=
  match importTemplatesE h genId now existingTemplates parsed with
  | .ok s => s
  | .error m => ⟨false, "Import failed: " ++ m, 0⟩

/-- `const qW = (q?) => q === "Green" ? 1 : q === "Amber" ? 0.6 : 0.2;` -/
def qW (q : Option Quality) : ℚ :=
  match q with
  | some .Green => 1
  | some .Amber => 6/10
  | _ => 2/10

/-- One entry of the `getBestOf` result. -/
structure BestOfResult where
  template : Template
  score : ℚ
deriving DecidableEq, Repr

/-- `Math.max(1, ...list)`. -/
def natMax1 (l : List Nat) : Nat := l.foldl max 1

/-- `getBestOf` (`src/unnamed/part_001` lines 1342–1358): keep templates
with `usageCount ≥ minUses`, normalize usage and success counts by the
collection maxima (floored at 1), score
`0.6·succN + 0.3·usageN + 0.1·qW(quality)`, sort descending, take `limit`.
The source defaults are `limit = 20`, `minUses = 1`. -/
def getBestOf (limit minUses : Nat) (templates : List Template) : List BestOfResult :=
  let all := templates.filter (fun t => decide (minUses ≤ t.usageCount))
  if all.isEmpty then []
  else
    let maxU := natMax1 (all.map (fun t => t.usageCount))
    let maxS := natMax1 (all.map (fun t => t.renderSuccessCount))
    let results := all.map (fun t =>
      let usageN : ℚ := (t.usageCount : ℚ) / (maxU : ℚ)
      let succN : ℚ := (t.renderSuccessCount : ℚ) / (maxS : ℚ)
      BestOfResult.mk t (6/10 * succN + 3/10 * usageN + 1/10 * qW t.quality))
    (sortStable (fun a b => decide (b.score ≤ a.score)) results).take limit

namespace Store

/-- The per-signature metadata snapshot of the store's index
(`DocMeta` in `src/unnamed/part_001`). -/
structure DocMeta where
  name : Str
  quality : Quality
  tags : List Str
  category : Str
  textLen : Nat
deriving DecidableEq, Repr

/-- The store's search index (`BuiltIndex` in `src/unnamed/part_001`).
Each JS `Map` is modelled as a function into `Option`; `none` means the key
is absent, and a present key holds the insertion-ordered set of
signatures. -/
structure BuiltIndex where
  term : Str → Option (List Str)
  tag : Str → Option (List Str)
  cat : Str → Option (List Str)
  meta : Str → Option DocMeta

/-- The `add` helper: create the bucket when the key is missing, then
`Set.add` the value. -/
def mapAdd (m : Str → Option (List Str)) (k v : Str) : Str → Option (List Str) :=
  fun q => if q = k then some (setAdd ((m k).getD []) v) else m q

/-- The removal step applied to one bucket: delete the value from the set
and drop the key entirely when the set becomes empty. -/
def remOp (v : Str) (o : Option (List Str)) : Option (List Str) :=
  match o with
  | none => none
  | some s =>
    let s2 := s.filter (fun x => decide (x ≠ v))
    if s2.isEmpty then none else some s2

/-- Pointwise removal of `v` under key `k`. -/
def mapRemove (m : Str → Option (List Str)) (k v : Str) : Str → Option (List Str) :=
  fun q => if q = k then remOp v (m k) else m q

/-- Folding `mapAdd` over a key list (the `for (const w of terms)` loops). -/
def addAll (m : Str → Option (List Str)) (ks : List Str) (v : Str) :
    Str → Option (List Str) :=
  ks.foldl (fun acc k => mapAdd acc k v) m

/-- Folding `mapRemove` over a key list. -/
def removeAll (m : Str → Option (List Str)) (ks : List Str) (v : Str) :
    Str → Option (List Str) :=
  ks.foldl (fun acc k => mapRemove acc k v) m

/-- The concatenated prompt text
`[subject, action, environment, style, lighting, camera].filter(Boolean).join(" ")`. -/
def templText (t : Template) : Str :=
  joinWords ([t.subject, t.action, t.environment, t.style, t.lighting,
              t.camera].filter (fun s => !s.isEmpty))

/-- `_addToIndex` (`src/unnamed/part_001` lines 591–608): no-op on a record
without a signature; otherwise add the signature under every token of the
prompt text, every lowercased tag and the lowercased category (default
"uncategorized"), and store the metadata snapshot. -/
def addToIndex (t : Template) (index : BuiltIndex) : BuiltIndex :=
  if t.signature.isEmpty then index
  else
    let sig := t.signature
    let terms := Store.tokenize (templText t)
    { term := addAll index.term terms sig,
      tag := addAll index.tag (t.tags.map toLowerStr) sig,
      cat := addAll index.cat [toLowerStr (jsOrS t.category "uncategorized".data)] sig,
      meta := fun q =>
        if q = sig then
          some ⟨t.name, t.quality.getD .Amber, t.tags,
                jsOrS t.category "uncategorized".data, (templText t).length⟩
        else index.meta q }

/-- `_removeFromIndex` (`src/unnamed/part_001` lines 610–642): symmetric
removal across the four maps, deleting a key when its set empties. -/
def removeFromIndex (t : Template) (index : BuiltIndex) : BuiltIndex :=
  if t.signature.isEmpty then index
  else
    let sig := t.signature
    let terms := Store.tokenize (templText t)
    { term := removeAll index.term terms sig,
      tag := removeAll index.tag (t.tags.map toLowerStr) sig,
      cat := removeAll index.cat [toLowerStr (jsOrS t.category "uncategorized".data)] sig,
      meta := fun q => if q = sig then none else index.meta q }

end Store

namespace Search

/-- Per-signature metadata of the services index
(`src/services/search/index.ts` — it additionally carries `updatedAt`). -/
structure DocMetaS where
  name : Str
  quality : Quality
  tags : List Str
  category : Str
  textLen : Nat
  updatedAt : Nat
deriving DecidableEq, Repr

/-- The services `BuiltIndex`, with maps modelled as insertion-ordered
association lists (this module iterates `meta.keys()`). -/
structure BuiltIndexS where
  term : List (Str × List Str)
  tag : List (Str × List Str)
  cat : List (Str × List Str)
  meta : List (Str × DocMetaS)
deriving DecidableEq, Repr

/-- `Map.prototype.get` on an association list. -/
def alook {α : Type} (m : List (Str × α)) (k : Str) : Option α :=
  (m.find? (fun e => decide (e.1 = k))).map (fun e => e.2)

/-- `SearchParams` of `src/services/search/searchTemplates.ts`.  The source
type only admits `"Green" | "Amber"` for `minQuality`. -/
structure SearchParams where
  q : Option Str := none
  tags : Option (List Str) := none
  category : Option Str := none
  minQuality : Option Quality := none
  limit : Option Nat := none

/-- One search result row. -/
structure SearchResultItem where
  signature : Str
  name : Str
  score : ℚ
  quality : Quality
  tags : List Str
  category : Str
deriving DecidableEq, Repr

/-- `clamp(x, 0, 1)`. -/
def clamp (x : ℚ) : ℚ := max 0 (min 1 x)

/-- `filterBySet` of `searchTemplates`: intersect the running candidate set
with one posting list, or drop everything when the key has no posting
list. -/
def filterBySet (items : List Str) (m : List (Str × List Str)) (k : Str) : List Str :=
  match alook m k with
  | some hits => items.filter (fun sig => decide (sig ∈ hits))
  | none => []

/-- `tokenize(p.q)` — the query terms of a request. -/
def qTermsOf (p : SearchParams) : List Str := Search.tokenize p.q

/-- `new Set((p.tags||[]).map(t => t.toLowerCase()))` — the selected tag
set, insertion-ordered and deduplicated. -/
def tagSetOf (p : SearchParams) : List Str :=
  dedupKeepFirst ((p.tags.getD []).map toLowerStr)

/-- `(p.category||"").toLowerCase()`. -/
def categoryOf (p : SearchParams) : Str := toLowerStr (jsOrStr p.category [])

/-- Candidate generation: with a text query, the terms' posting lists are
looked up and the missing ones dropped (`.filter(Boolean)`), and the
candidates are the members of the first list present in every list; without
a text query, all indexed signatures. -/
def baseCandidates (idx : BuiltIndexS) (p : SearchParams) : List Str :=
  if !(qTermsOf p).isEmpty then
    match (qTermsOf p).filterMap (alook idx.term) with
    | [] => []
    | h0 :: _ =>
      dedupKeepFirst (h0.filter (fun s =>
        ((qTermsOf p).filterMap (alook idx.term)).all (fun hs => decide (s ∈ hs))))
  else dedupKeepFirst (idx.meta.map (fun e => e.1))

/-- The tag and category filters applied over the base candidates (both
AND semantics, both via `filterBySet`). -/
def candidatesOf (idx : BuiltIndexS) (p : SearchParams) : List Str :=
  let c1 :=
    if !(tagSetOf p).isEmpty then
      (tagSetOf p).foldl (fun acc tg => filterBySet acc idx.tag tg)
        (baseCandidates idx p)
    else baseCandidates idx p
  if !(categoryOf p).isEmpty then filterBySet c1 idx.cat (categoryOf p) else c1

/-- The number of query terms whose posting list contains `sig`. -/
def termMatchCount (idx : BuiltIndexS) (p : SearchParams) (sig : Str) : Nat :=
  ((qTermsOf p).filter (fun w =>
    match alook idx.term w with
    | some s => decide (sig ∈ s)
    | none => false)).length

/-- The number of selected tags whose posting list contains `sig`. -/
def tagMatchCount (idx : BuiltIndexS) (p : SearchParams) (sig : Str) : Nat :=
  ((tagSetOf p).filter (fun tg =>
    match alook idx.tag tg with
    | some s => decide (sig ∈ s)
    | none => false)).length

/-- The clamped candidate score:
`0.6·textMatch + 0.2·tagMatch + 0.1·catBoost + 0.1·qBoost + lengthAdj`. -/
def entryScore (idx : BuiltIndexS) (p : SearchParams) (sig : Str)
    (m : DocMetaS) : ℚ :=
  clamp
    ((if !(qTermsOf p).isEmpty then
        ((termMatchCount idx p sig : ℚ) / ((qTermsOf p).length : ℚ))
      else 1/2) * (6/10) +
     (if !(tagSetOf p).isEmpty then
        min (3/10) ((tagMatchCount idx p sig : ℚ) * (1/10))
      else 0) * (2/10) +
     (if !(categoryOf p).isEmpty ∧ toLowerStr m.category = categoryOf p then
        (1/10 : ℚ)
      else 0) * (1/10) +
     (if m.quality = Quality.Green then (1/10 : ℚ)
      else if m.quality = Quality.Amber then 1/20 else 0) * (1/10) +
     (if m.textLen > 0 then (if m.textLen < 160 then (1/20 : ℚ) else 0) else 0))

/-- Scoring of one candidate: quality floor, score, 0.15 threshold. -/
def scoreEntry (idx : BuiltIndexS) (p : SearchParams) (sig : Str) :
    Option SearchResultItem :=
  match alook idx.meta sig with
  | none => none
  | some m =>
    if p.minQuality = some Quality.Green ∧ m.quality ≠ Quality.Green then none
    else if p.minQuality = some Quality.Amber ∧ m.quality = Quality.Red then none
    else if (3/20 : ℚ) ≤ entryScore idx p sig m then
      some ⟨sig, m.name, entryScore idx p sig m, m.quality, m.tags, m.category⟩
    else none

/-- `searchTemplates` (`src/services/search/searchTemplates.ts` lines 9–87).
With a text query the candidates are the signatures present in every posting
list among those of the query terms that exist in the index
(`.filter(Boolean)` drops the terms with no posting list); without a text
query the candidates start as all indexed signatures.  Tag and category
filters intersect.  Each candidate is scored, thresholded at 0.15, sorted by
descending score with descending `updatedAt` as tie-break, truncated to
`limit` (default 50). -/
def searchTemplates (idx : BuiltIndexS) (p : SearchParams) : List SearchResultItem :=
  let results := (candidatesOf idx p).filterMap (scoreEntry idx p)
  let updOf : SearchResultItem → Nat := fun r =>
    (((alook idx.meta r.signature).map (fun m => m.updatedAt)).getD 0)
  (sortStable
    (fun a b => if a.score = b.score then decide (updOf b ≤ updOf a)
                else decide (b.score ≤ a.score)) results).take (p.limit.getD 50)

end Search

/-! ### Helper lemmas: characters and whitespace words -/

theorem toLowerCh_idem (c : Char) : toLowerCh (toLowerCh c) = toLowerCh c := by
  have key : ∀ p ∈ upperLowerPairs, toLowerCh p.2 = p.2 := by decide
  unfold toLowerCh
  cases h : upperLowerPairs.find? (fun p => p.1 = c) with
  | none => simp [toLowerCh, h]
  | some p =>
    have hp := List.mem_of_find?_eq_some h
    simpa [toLowerCh] using key p hp

theorem isWsChar_toLowerCh (c : Char) : isWsChar (toLowerCh c) = isWsChar c := by
  have key : ∀ p ∈ upperLowerPairs, isWsChar p.1 = false ∧ isWsChar p.2 = false := by decide
  unfold toLowerCh
  cases h : upperLowerPairs.find? (fun p => p.1 = c) with
  | none => simp
  | some p =>
    have hp := List.mem_of_find?_eq_some h
    have hpc : p.1 = c := by simpa using List.find?_some h
    rcases key p hp with ⟨h1, h2⟩
    simp [h2, ← hpc, h1]

theorem toLowerStr_idem (s : Str) : toLowerStr (toLowerStr s) = toLowerStr s := by
  unfold toLowerStr
  rw [List.map_map]
  exact List.map_congr_left (fun a _ => toLowerCh_idem a)

theorem splitRuns_ne_nil (sep : Char → Bool) (s : Str) : splitRuns sep s ≠ [] := by
  cases s with
  | nil => simp [splitRuns]
  | cons c cs =>
    simp only [splitRuns]
    cases hr : splitRuns sep cs with
    | nil => exact absurd hr (splitRuns_ne_nil sep cs)
    | cons w ws =>
      by_cases h : sep c = true <;> simp [h]

theorem splitRuns_sep_free (sep : Char → Bool) (s : Str) :
    ∀ w ∈ splitRuns sep s, ∀ c ∈ w, sep c = false := by
  induction s with
  | nil => intro w hw; simp [splitRuns] at hw; simp [hw]
  | cons c cs ih =>
    intro w hw
    simp only [splitRuns] at hw
    by_cases h : sep c = true
    · rw [if_pos h] at hw
      rcases List.mem_cons.mp hw with rfl | hw
      · simp
      · exact ih w hw
    · rw [if_neg h] at hw
      cases hr : splitRuns sep cs with
      | nil => exact absurd hr (splitRuns_ne_nil sep cs)
      | cons w0 ws =>
        rw [hr] at hw
        rcases List.mem_cons.mp hw with rfl | hw
        · intro d hd
          rcases List.mem_cons.mp hd with rfl | hd'
          · simpa using h
          · exact ih w0 (by simp [hr]) d hd'
        · exact ih w (by simp [hr, hw])

theorem wordsOf_mem (sep : Char → Bool) (s : Str) :
    ∀ w ∈ wordsOf sep s, w ≠ [] ∧ ∀ c ∈ w, sep c = false := by
  intro w hw
  unfold wordsOf at hw
  rw [List.mem_filter] at hw
  refine ⟨by simpa using hw.2, splitRuns_sep_free sep s w hw.1⟩

theorem splitRuns_word_append (sep : Char → Bool) (w l : Str) (hd : Str) (tl : List Str)
    (hw : ∀ c ∈ w, sep c = false) (hl : splitRuns sep l = hd :: tl) :
    splitRuns sep (w ++ l) = (w ++ hd) :: tl := by
  induction w with
  | nil => simpa using hl
  | cons c w' ih =>
    have hc : sep c = false := hw c (by simp)
    have ih' := ih (fun d hdm => hw d (by simp [hdm]))
    show splitRuns sep (c :: (w' ++ l)) = (c :: (w' ++ hd)) :: tl
    simp only [splitRuns, ih', hc]
    simp

theorem wordsOf_joinWords (sep : Char → Bool) (hsp : sep ' ' = true) (ws : List Str)
    (hws : ∀ w ∈ ws, w ≠ [] ∧ ∀ c ∈ w, sep c = false) :
    wordsOf sep (joinWords ws) = ws := by
  induction ws with
  | nil => simp [joinWords, wordsOf, splitRuns]
  | cons w rest ih =>
    cases rest with
    | nil =>
      have hw := hws w (by simp)
      have h1 : splitRuns sep (w ++ []) = (w ++ []) :: [] :=
        splitRuns_word_append sep w [] [] [] hw.2 (by simp [splitRuns])
      have h2 : splitRuns sep w = [w] := by simpa using h1
      show wordsOf sep (joinWords [w]) = [w]
      have hj : joinWords [w] = w := by simp [joinWords]
      rw [hj]
      unfold wordsOf
      rw [h2]
      simp [hw.1]
    | cons w2 rest2 =>
      have hw := hws w (by simp)
      have ihrest : wordsOf sep (joinWords (w2 :: rest2)) = w2 :: rest2 :=
        ih (fun x hx => hws x (by simp [hx]))
      have hne : splitRuns sep (joinWords (w2 :: rest2)) ≠ [] :=
        splitRuns_ne_nil sep _
      cases hr : splitRuns sep (joinWords (w2 :: rest2)) with
      | nil => exact absurd hr hne
      | cons hd tl =>
        have hsp1 : splitRuns sep (' ' :: joinWords (w2 :: rest2)) =
            [] :: hd :: tl := by
          simp only [splitRuns, hr, hsp]
          simp
        have h2 : splitRuns sep (w ++ ' ' :: joinWords (w2 :: rest2)) =
            (w ++ []) :: hd :: tl :=
          splitRuns_word_append sep w _ [] (hd :: tl) hw.2 hsp1
        have hfilter : (hd :: tl).filter (fun x => !x.isEmpty) = w2 :: rest2 := by
          have h3 := ihrest
          unfold wordsOf at h3
          rw [hr] at h3
          exact h3
        show wordsOf sep (joinWords (w :: w2 :: rest2)) = w :: w2 :: rest2
        have hj : joinWords (w :: w2 :: rest2) = w ++ ' ' :: joinWords (w2 :: rest2) := by
          simp [joinWords]
        rw [hj]
        unfold wordsOf
        rw [h2]
        simp only [List.append_nil]
        have hwne : (!w.isEmpty) = true := by
          simp [List.isEmpty_iff, hw.1]
        rw [List.filter_cons, if_pos hwne, hfilter]

theorem singleSpace_words (s : Str) :
    wordsOf isWsChar (singleSpace s) = wordsOf isWsChar s := by
  unfold singleSpace
  exact wordsOf_joinWords isWsChar (by decide) _ (wordsOf_mem isWsChar s)

theorem singleSpace_idem (s : Str) : singleSpace (singleSpace s) = singleSpace s := by
  show joinWords (wordsOf isWsChar (singleSpace s)) = singleSpace s
  rw [singleSpace_words s]
  rfl

theorem toLowerStr_joinWords (ws : List Str) :
    toLowerStr (joinWords ws) = joinWords (ws.map toLowerStr) := by
  induction ws with
  | nil => simp [joinWords, toLowerStr]
  | cons w rest ih =>
    cases rest with
    | nil => simp [joinWords, toLowerStr]
    | cons w2 rest2 =>
      show toLowerStr (w ++ ' ' :: joinWords (w2 :: rest2)) =
        joinWords (toLowerStr w :: (w2 :: rest2).map toLowerStr)
      have hj : joinWords (toLowerStr w :: (w2 :: rest2).map toLowerStr) =
          toLowerStr w ++ ' ' :: joinWords ((w2 :: rest2).map toLowerStr) := by
        cases rest2 <;> simp [joinWords, toLowerStr]
      rw [hj, ← ih]
      unfold toLowerStr
      rw [List.map_append]
      simp only [List.map_cons]
      rw [show toLowerCh ' ' = ' ' from by decide]

theorem singleSpace_toLowerStr_singleSpace (s : Str) :
    singleSpace (toLowerStr (singleSpace s)) = toLowerStr (singleSpace s) := by
  unfold singleSpace
  rw [toLowerStr_joinWords]
  congr 1
  apply wordsOf_joinWords isWsChar (by decide)
  intro w hw
  rw [List.mem_map] at hw
  obtain ⟨w0, hw0, rfl⟩ := hw
  have h0 := wordsOf_mem isWsChar s w0 hw0
  constructor
  · simpa [toLowerStr] using h0.1
  · intro c hc
    unfold toLowerStr at hc
    rw [List.mem_map] at hc
    obtain ⟨c0, hc0, rfl⟩ := hc
    rw [isWsChar_toLowerCh]
    exact h0.2 c0 hc0

theorem lower_lower (o : Option Str) : lower (some (lower o)) = lower o := by
  cases o with
  | none => simp [lower]
  | some v =>
    by_cases hv : v.isEmpty
    · have h1 : lower (some v) = [] := by simp [lower, hv]
      rw [h1]
      simp [lower]
    · have h1 : lower (some v) = toLowerStr (singleSpace v) := by simp [lower, hv]
      rw [h1]
      by_cases he : (toLowerStr (singleSpace v)).isEmpty
      · rw [List.isEmpty_iff.mp he]
        simp [lower]
      · have h3 : lower (some (toLowerStr (singleSpace v))) =
            toLowerStr (singleSpace (toLowerStr (singleSpace v))) := by
          simp [lower, he]
        rw [h3, singleSpace_toLowerStr_singleSpace, toLowerStr_idem]

/-! ### Helper lemmas: deduplication and stable sorting -/

theorem mem_of_mem_dedupAux {α : Type} [DecidableEq α] :
    ∀ (l seen : List α) (x : α), x ∈ dedupAux seen l → x ∈ l := by
  intro l
  induction l with
  | nil => intro seen x hx; simp [dedupAux] at hx
  | cons y ys ih =>
    intro seen x hx
    unfold dedupAux at hx
    by_cases hy : y ∈ seen
    · rw [if_pos hy] at hx
      exact List.mem_cons_of_mem y (ih seen x hx)
    · rw [if_neg hy] at hx
      rcases List.mem_cons.mp hx with rfl | hx
      · exact List.mem_cons_self x ys
      · exact List.mem_cons_of_mem y (ih (y :: seen) x hx)

theorem dedupAux_nodup_and_fresh {α : Type} [DecidableEq α] :
    ∀ (l seen : List α),
      (dedupAux seen l).Nodup ∧ ∀ x ∈ dedupAux seen l, x ∉ seen := by
  intro l
  induction l with
  | nil => intro seen; simp [dedupAux]
  | cons y ys ih =>
    intro seen
    unfold dedupAux
    by_cases hy : y ∈ seen
    · rw [if_pos hy]
      exact ih seen
    · rw [if_neg hy]
      obtain ⟨hnd, hfresh⟩ := ih (y :: seen)
      constructor
      · refine List.nodup_cons.mpr ⟨?_, hnd⟩
        intro hmem
        exact (hfresh y hmem) (List.mem_cons_self y seen)
      · intro x hx
        rcases List.mem_cons.mp hx with rfl | hx
        · exact hy
        · exact fun hs => (hfresh x hx) (List.mem_cons_of_mem y hs)

theorem nodup_dedupKeepFirst {α : Type} [DecidableEq α] (l : List α) :
    (dedupKeepFirst l).Nodup :=
  (dedupAux_nodup_and_fresh l []).1

theorem mem_of_mem_dedupKeepFirst {α : Type} [DecidableEq α] {l : List α} {x : α}
    (hx : x ∈ dedupKeepFirst l) : x ∈ l :=
  mem_of_mem_dedupAux l [] x hx

theorem dedupAux_eq_self {α : Type} [DecidableEq α] :
    ∀ (l seen : List α), l.Nodup → (∀ x ∈ l, x ∉ seen) → dedupAux seen l = l := by
  intro l
  induction l with
  | nil => intro seen _ _; rfl
  | cons y ys ih =>
    intro seen hnd hfresh
    unfold dedupAux
    rw [if_neg (hfresh y (List.mem_cons_self y ys))]
    congr 1
    apply ih (y :: seen) (List.nodup_cons.mp hnd).2
    intro x hx hmem
    rcases List.mem_cons.mp hmem with rfl | hmem
    · exact (List.nodup_cons.mp hnd).1 hx
    · exact hfresh x (List.mem_cons_of_mem y hx) hmem

theorem dedupKeepFirst_eq_self {α : Type} [DecidableEq α] {l : List α}
    (hnd : l.Nodup) : dedupKeepFirst l = l :=
  dedupAux_eq_self l [] hnd (by simp)

theorem ins_perm {α : Type} (le : α → α → Bool) (x : α) :
    ∀ l : List α, (ins le x l).Perm (x :: l) := by
  intro l
  induction l with
  | nil => simp [ins]
  | cons y ys ih =>
    unfold ins
    by_cases h : le y x = true
    · rw [if_pos h]
      exact (List.Perm.cons y ih).trans (List.Perm.swap x y ys)
    · rw [if_neg h]

theorem foldl_ins_perm {α : Type} (le : α → α → Bool) :
    ∀ (l acc : List α),
      (l.foldl (fun a x => ins le x a) acc).Perm (acc ++ l) := by
  intro l
  induction l with
  | nil => intro acc; simp
  | cons x xs ih =>
    intro acc
    rw [List.foldl_cons]
    refine (ih (ins le x acc)).trans ?_
    refine (List.Perm.append_right xs (ins_perm le x acc)).trans ?_
    exact (List.perm_middle).symm

theorem sortStable_perm {α : Type} (le : α → α → Bool) (l : List α) :
    (sortStable le l).Perm l := by
  simpa using foldl_ins_perm le l []

theorem mem_sortStable {α : Type} (le : α → α → Bool) {l : List α} {x : α} :
    x ∈ sortStable le l ↔ x ∈ l :=
  (sortStable_perm le l).mem_iff

theorem pairwise_ins {α : Type} (le : α → α → Bool)
    (htot : ∀ a b, (le a b || le b a) = true)
    (htr : ∀ a b c, le a b = true → le b c = true → le a c = true) (x : α) :
    ∀ l : List α, l.Pairwise (fun a b => le a b = true) →
      (ins le x l).Pairwise (fun a b => le a b = true) := by
  intro l
  induction l with
  | nil => intro _; simp [ins]
  | cons y ys ih =>
    intro hl
    obtain ⟨hy, hys⟩ := List.pairwise_cons.mp hl
    unfold ins
    by_cases h : le y x = true
    · rw [if_pos h]
      refine List.pairwise_cons.mpr ⟨?_, ih hys⟩
      intro z hz
      have hz' := (ins_perm le x ys).mem_iff.mp hz
      rcases List.mem_cons.mp hz' with rfl | hz'
      · exact h
      · exact hy z hz'
    · rw [if_neg h]
      have hxy : le x y = true := by
        have := htot y x
        rcases Bool.or_eq_true_iff.mp this with h1 | h1
        · exact absurd h1 h
        · exact h1
      refine List.pairwise_cons.mpr ⟨?_, hl⟩
      intro z hz
      rcases List.mem_cons.mp hz with rfl | hz
      · exact hxy
      · exact htr x y z hxy (hy z hz)

theorem pairwise_sortStable {α : Type} (le : α → α → Bool)
    (htot : ∀ a b, (le a b || le b a) = true)
    (htr : ∀ a b c, le a b = true → le b c = true → le a c = true) (l : List α) :
    (sortStable le l).Pairwise (fun a b => le a b = true) := by
  have aux : ∀ (l acc : List α), acc.Pairwise (fun a b => le a b = true) →
      (l.foldl (fun a x => ins le x a) acc).Pairwise (fun a b => le a b = true) := by
    intro l
    induction l with
    | nil => intro acc h; simpa using h
    | cons x xs ih =>
      intro acc h
      rw [List.foldl_cons]
      exact ih (ins le x acc) (pairwise_ins le htot htr x acc h)
  exact aux l [] (by simp)

/-! ### Helper lemmas: the lexicographic string order -/

theorem strLe_total : ∀ a b : Str, (strLe a b || strLe b a) = true := by
  intro a
  induction a with
  | nil => intro b; simp [strLe]
  | cons x xs ih =>
    intro b
    cases b with
    | nil => simp [strLe]
    | cons y ys =>
      by_cases hxy : x = y
      · subst hxy
        simp only [strLe, if_pos rfl]
        exact ih ys
      · have hne : y ≠ x := fun h => hxy h.symm
        simp only [strLe, if_neg hxy, if_neg hne]
        rcases lt_or_gt_of_ne hxy with h | h
        · simp [h]
        · simp [h]

theorem strLe_trans : ∀ a b c : Str,
    strLe a b = true → strLe b c = true → strLe a c = true := by
  intro a
  induction a with
  | nil => intro b c _ _; simp [strLe]
  | cons x xs ih =>
    intro b c h1 h2
    cases b with
    | nil => simp [strLe] at h1
    | cons y ys =>
      cases c with
      | nil => simp [strLe] at h2
      | cons z zs =>
        by_cases hxy : x = y <;> by_cases hyz : y = z
        · subst hxy; subst hyz
          simp only [strLe, if_pos rfl] at h1 h2 ⊢
          exact ih ys zs h1 h2
        · subst hxy
          simp only [strLe, if_pos rfl, if_neg hyz] at h1 h2 ⊢
          exact h2
        · subst hyz
          simp only [strLe, if_neg hxy] at h1 ⊢
          exact h1
        · simp only [strLe, if_neg hxy, if_neg hyz] at h1 h2
          have hlt : x < z := lt_trans (of_decide_eq_true h1) (of_decide_eq_true h2)
          have hxz : x ≠ z := ne_of_lt hlt
          simp only [strLe, if_neg hxz]
          exact decide_eq_true hlt

/-! ### Claim C7 — canonicalizer idempotence -/

/-- A draft whose `category` is a non-empty, whitespace-only string:
`lower` collapses it to the empty string, which the `|| "uncategorized"`
default then replaces on a second pass. -/
def catOnlyDraft : Patch := { category := some [' '] }

/-- Witness draft for the amended C7 statement. -/
def idemDraft : Patch :=
  { name := some "  My  Cat ".data, subject := some "A  CAT".data,
    category := some "Art".data,
    tags := some ["X".data, "x".data, " y  z ".data] }

/-- C7 (counterexample): `normalizeTemplate` is *not* idempotent on every
draft.  For a draft whose category is the one-space string, the first pass
canonicalizes `category` to `""`, and the second pass turns that into
`"uncategorized"`. -/
theorem C7_cex :
    (normalizeTemplate catOnlyDraft).category = [] ∧
    (normalizeTemplate (canonicalToPatch (normalizeTemplate catOnlyDraft))).category
      = "uncategorized".data ∧
    normalizeTemplate (canonicalToPatch (normalizeTemplate catOnlyDraft))
      ≠ normalizeTemplate catOnlyDraft := by
  refine ⟨by decide, by decide, ?_⟩
  intro h
  have := congrArg Canonical.category h
  revert this
  decide

/-- C7 (amended): `normalizeTemplate` is idempotent on every draft whose
canonical `category` is non-empty — i.e. on every draft except those whose
`category` is a non-empty whitespace-only string (on those, only the
`category` field differs between the two passes, becoming
`"uncategorized"`). -/
theorem C7_normalizeTemplate_idem (x : Patch)
    (hcat : (normalizeTemplate x).category ≠ []) :
    normalizeTemplate (canonicalToPatch (normalizeTemplate x)) = normalizeTemplate x := by
  set c := normalizeTemplate x with hc
  have hname : singleSpace ((some c.name).getD []) = c.name := by
    rw [Option.getD_some, hc]
    show singleSpace (singleSpace (x.name.getD [])) = (normalizeTemplate x).name
    rw [singleSpace_idem]
    rfl
  have hsubj : lower (some c.subject) = c.subject := by
    rw [hc]
    show lower (some (lower x.subject)) = (normalizeTemplate x).subject
    rw [lower_lower]
    rfl
  have hact : lower (some c.action) = c.action := by
    rw [hc]
    show lower (some (lower x.action)) = (normalizeTemplate x).action
    rw [lower_lower]
    rfl
  have henv : lower (some c.environment) = c.environment := by
    rw [hc]
    show lower (some (lower x.environment)) = (normalizeTemplate x).environment
    rw [lower_lower]
    rfl
  have hsty : lower (some c.style) = c.style := by
    rw [hc]
    show lower (some (lower x.style)) = (normalizeTemplate x).style
    rw [lower_lower]
    rfl
  have hlig : lower (some c.lighting) = c.lighting := by
    rw [hc]
    show lower (some (lower x.lighting)) = (normalizeTemplate x).lighting
    rw [lower_lower]
    rfl
  have hcam : lower (some c.camera) = c.camera := by
    rw [hc]
    show lower (some (lower x.camera)) = (normalizeTemplate x).camera
    rw [lower_lower]
    rfl
  have hcat2 : lower (some (jsOrStr (some c.category) "uncategorized".data))
      = c.category := by
    have hne : c.category.isEmpty = false := by
      cases hcc : c.category with
      | nil => exact absurd hcc hcat
      | cons a as => rfl
    have hjs : jsOrStr (some c.category) "uncategorized".data = c.category := by
      simp [jsOrStr, hne]
    rw [hjs, hc]
    show lower (some (lower (some (jsOrStr x.category "uncategorized".data))))
      = (normalizeTemplate x).category
    rw [lower_lower]
    rfl
  have htags : (dedupKeepFirst (((some c.tags).getD []).map
      (fun t => lower (some t)))).take 10 = c.tags := by
    rw [Option.getD_some]
    have hfix : ∀ t ∈ c.tags, lower (some t) = t := by
      intro t ht
      rw [hc] at ht
      have ht1 : t ∈ dedupKeepFirst ((x.tags.getD []).map (fun u => lower (some u))) :=
        List.take_subset 10 _ ht
      have ht2 := mem_of_mem_dedupKeepFirst ht1
      rw [List.mem_map] at ht2
      obtain ⟨u, _, rfl⟩ := ht2
      exact lower_lower (some u)
    have hmap : c.tags.map (fun t => lower (some t)) = c.tags := by
      have := List.map_congr_left (f := fun t => lower (some t)) (g := id) hfix
      simpa using this
    rw [hmap]
    have hnd : c.tags.Nodup := by
      rw [hc]
      exact ((List.take_sublist 10 _).nodup (nodup_dedupKeepFirst _))
    rw [dedupKeepFirst_eq_self hnd]
    apply List.take_of_length_le
    rw [hc]
    show ((dedupKeepFirst ((x.tags.getD []).map
      (fun u => lower (some u)))).take 10).length ≤ 10
    rw [List.length_take]
    exact min_le_left _ _
  show Canonical.mk (singleSpace ((some c.name).getD []))
      (lower (some c.subject)) (lower (some c.action))
      (lower (some c.environment)) (lower (some c.style))
      (lower (some c.lighting)) (lower (some c.camera))
      (lower (some (jsOrStr (some c.category) "uncategorized".data)))
      ((dedupKeepFirst (((some c.tags).getD []).map (fun t => lower (some t)))).take 10)
    = c
  rw [hname, hsubj, hact, henv, hsty, hlig, hcam, hcat2, htags]

/-- C7 (witness): a concrete draft on which the amended idempotence theorem
applies. -/
theorem C7_witness :
    (normalizeTemplate idemDraft).category ≠ [] ∧
    normalizeTemplate (canonicalToPatch (normalizeTemplate idemDraft))
      = normalizeTemplate idemDraft :=
  ⟨by decide, C7_normalizeTemplate_idem idemDraft (by decide)⟩

/-! ### Claim C4 — signature determinism and tag-independence -/

/-- C4: `computeSignature` is a pure function of the eight canonical content
fields: for any digest function `h` and any two inputs whose canonical
`name`, `subject`, `action`, `environment`, `style`, `lighting`, `camera`
and `category` coincide, the signatures coincide — regardless of any
difference in `tags`, `id`, timestamps, flags or usage counters (none of
which occur in the payload).  Determinism across calls is immediate because
the model is a mathematical function. -/
theorem C4_computeSignature_content_determined (h : Str → Str) (x y : Patch)
    (hname : (normalizeTemplate x).name = (normalizeTemplate y).name)
    (hsubj : (normalizeTemplate x).subject = (normalizeTemplate y).subject)
    (hact : (normalizeTemplate x).action = (normalizeTemplate y).action)
    (henv : (normalizeTemplate x).environment = (normalizeTemplate y).environment)
    (hsty : (normalizeTemplate x).style = (normalizeTemplate y).style)
    (hlig : (normalizeTemplate x).lighting = (normalizeTemplate y).lighting)
    (hcam : (normalizeTemplate x).camera = (normalizeTemplate y).camera)
    (hcat : (normalizeTemplate x).category = (normalizeTemplate y).category) :
    computeSignature h x = computeSignature h y := by
  unfold computeSignature
  congr 1
  unfold signaturePayload
  rw [hname, hsubj, hact, henv, hsty, hlig, hcam, hcat]

/-- Two drafts with the same content but different tags, ids, flags and
counters, used to witness C4. -/
def sigDraftA : Patch :=
  { name := some "Neon City".data, subject := some "a  neon  city".data,
    style := some "CYBERPUNK".data, tags := some ["night".data, "blue".data],
    id := some "id-1".data, usageCount := some 7, favorite := some true,
    createdAt := some 11 }

/-- Companion draft for the C4 witness, differing from `sigDraftA` only in
tags and identity/usage fields. -/
def sigDraftB : Patch :=
  { name := some " Neon  City ".data, subject := some "A NEON CITY".data,
    style := some "cyberpunk".data, tags := some ["pink".data],
    id := some "id-2".data, usageCount := some 99, pinned := some true,
    updatedAt := some 400 }

/-- C4 (witness): the two concrete drafts canonicalize to the same content,
so any digest assigns them the same signature. -/
theorem C4_witness :
    (normalizeTemplate sigDraftA).name = (normalizeTemplate sigDraftB).name ∧
    sigDraftA.tags ≠ sigDraftB.tags ∧
    computeSignature (fun s => s) sigDraftA = computeSignature (fun s => s) sigDraftB :=
  ⟨by decide, by decide,
    C4_computeSignature_content_determined (fun s => s) sigDraftA sigDraftB
      (by decide) (by decide) (by decide) (by decide) (by decide) (by decide)
      (by decide) (by decide)⟩

/-! ### Claim C8 — name-length validation boundary -/

theorem validateTemplate_red_iff (input : VInput) :
    (validateTemplate input).quality = Quality.Red ↔ vIsRed input = true := by
  unfold validateTemplate
  by_cases h : vIsRed input = true
  · simp [h]
  · have h' : vIsRed input = false := by simpa using h
    by_cases hi : (vIssues input).isEmpty <;> simp [h', hi]

theorem validateTemplate_ok_eq (input : VInput) :
    (validateTemplate input).ok = !(vIsRed input) := by
  unfold validateTemplate
  by_cases h : vIsRed input = true
  · simp [h]
  · have h' : vIsRed input = false := by simpa using h
    by_cases hi : (vIssues input).isEmpty <;> simp [h', hi]

/-- C8: for every draft satisfying the other validation rules (subject
present with at most 300 trimmed chars, at least 4 of 6 prompt fields
filled, no lighting contradiction), `validateTemplate` returns `ok = true`
when the trimmed name length is exactly 3 or exactly 60, and quality `Red`
when it is 2 or 61. -/
theorem C8_validate_name_boundary (input : VInput)
    (hs1 : req input.subject = true)
    (hs2 : vSubjLen input ≤ 300)
    (hf : 4 ≤ vFilled input)
    (hco : vContra input = false) :
    ((vNameLen input = 3 ∨ vNameLen input = 60) → (validateTemplate input).ok = true)
    ∧ ((vNameLen input = 2 ∨ vNameLen input = 61) →
        (validateTemplate input).quality = Quality.Red) := by
  have hsb : vSubjBad input = false := by
    unfold vSubjBad
    rw [hs1]
    simp only [Bool.not_true, Bool.false_or]
    exact decide_eq_false (by omega)
  have hfb : decide (vFilled input < 4) = false := decide_eq_false (by omega)
  constructor
  · intro h3
    have hreq : req input.name = true := by
      cases hn : input.name with
      | none =>
        exfalso
        have : vNameLen input = 0 := by unfold vNameLen; rw [hn]; rfl
        omega
      | some s =>
        have hlen : (trimStr s).length = vNameLen input := by
          unfold vNameLen; rw [hn]; rfl
        have htne : (trimStr s).isEmpty = false := by
          cases ht : trimStr s with
          | nil => rw [ht] at hlen; simp at hlen; omega
          | cons a as => rfl
        have hsne : s.isEmpty = false := by
          cases hss : s with
          | nil =>
            rw [hss] at hlen
            have : trimStr ([] : Str) = [] := rfl
            rw [this] at hlen
            simp at hlen
            omega
          | cons a as => rfl
        unfold req
        show (!s.isEmpty && !(trimStr s).isEmpty) = true
        rw [hsne, htne]
        rfl
    have hnb : vNameBad input = false := by
      unfold vNameBad
      rw [hreq]
      have h1 : decide (vNameLen input < 3) = false := decide_eq_false (by omega)
      have h2 : decide (vNameLen input > 60) = false := decide_eq_false (by omega)
      rw [h1, h2]
      rfl
    have hred : vIsRed input = false := by
      unfold vIsRed
      rw [hnb, hsb, hfb, hco]
      rfl
    rw [validateTemplate_ok_eq, hred]
    rfl
  · intro h3
    have hnb : vNameBad input = true := by
      unfold vNameBad
      rcases h3 with h3 | h3
      · have : decide (vNameLen input < 3) = true := decide_eq_true (by omega)
        rw [this]
        simp
      · have : decide (vNameLen input > 60) = true := decide_eq_true (by omega)
        rw [this]
        simp
    rw [validateTemplate_red_iff]
    unfold vIsRed
    rw [hnb]
    rfl

/-- A draft satisfying the side rules of C8, with a 3-character name. -/
def boundaryDraft : VInput :=
  { name := some "abc".data, subject := some "cat".data,
    action := some "runs".data, environment := some "park".data,
    style := some "oil".data }

/-- C8 (witness): the boundary theorem applied to a concrete draft with a
3-character name. -/
theorem C8_witness :
    req boundaryDraft.subject = true ∧ vSubjLen boundaryDraft ≤ 300 ∧
    4 ≤ vFilled boundaryDraft ∧ vContra boundaryDraft = false ∧
    (((vNameLen boundaryDraft = 3 ∨ vNameLen boundaryDraft = 60) →
        (validateTemplate boundaryDraft).ok = true)
      ∧ ((vNameLen boundaryDraft = 2 ∨ vNameLen boundaryDraft = 61) →
        (validateTemplate boundaryDraft).quality = Quality.Red)) :=
  ⟨by decide, by decide, by decide, by decide,
    C8_validate_name_boundary boundaryDraft (by decide) (by decide)
      (by decide) (by decide)⟩

/-! ### Claim C2 — best-of ranking scenario -/

/-- A template with all fields at their defaults, used to build concrete
examples. -/
def plainTemplate : Template :=
  { id := [], name := [], subject := [], action := [], environment := [],
    style := [], lighting := [], camera := [], category := [], tags := [],
    favorite := false, pinned := false, usageCount := 0,
    renderSuccessCount := 0, lastUsed := 0, createdAt := 0, updatedAt := 0,
    signature := [], quality := none, thumbnail := none, variantOf := none }

/-- The spec's best-of scenario collection: (usageCount,
renderSuccessCount, quality) = (10, 8, Green), (10, 2, Red), (1, 1, Amber). -/
def bestOfEx : List Template :=
  [{ plainTemplate with
      id := "t1".data, name := "g".data, usageCount := 10,
      renderSuccessCount := 8, quality := some Quality.Green },
   { plainTemplate with
      id := "t2".data, name := "r".data, usageCount := 10,
      renderSuccessCount := 2, quality := some Quality.Red },
   { plainTemplate with
      id := "t3".data, name := "a".data, usageCount := 1,
      renderSuccessCount := 1, quality := some Quality.Amber }]

/-- C2 (counterexample): with the source's scoring — success and usage
normalized by the collection *maxima*, not per-template success ratios —
the (1,1,Amber) template scores 0.165 and the (10,2,Red) template 0.47, so
the Amber template ranks *below* the Red one, contradicting the claimed
ordering. -/
theorem C2_cex :
    ¬ ((((getBestOf 20 1 bestOfEx).map (fun r => r.template.name)).indexOf "a".data)
      < (((getBestOf 20 1 bestOfEx).map (fun r => r.template.name)).indexOf "r".data)) := by
  have hnames : (getBestOf 20 1 bestOfEx).map (fun r => r.template.name)
      = ["g".data, "r".data, "a".data] := by
    norm_num [getBestOf, bestOfEx, plainTemplate, natMax1, qW, sortStable, ins]
  rw [hnames]
  decide

/-- C2 (amended): on the scenario collection, `getBestOf` (default
`limit = 20`, `minUses = 1`) ranks the (10,8,Green) template highest with
score 1, but ranks the (10,2,Red) template (score 47/100) *above* the
(1,1,Amber) template (score 33/200): the weighting normalizes success
counts by the collection maximum, so the success-ratio intuition of the
original claim does not hold. -/
theorem C2_getBestOf_scenario :
    (getBestOf 20 1 bestOfEx).map (fun r => r.template.name)
      = ["g".data, "r".data, "a".data]
    ∧ (getBestOf 20 1 bestOfEx).map (fun r => r.score)
      = [1, 47/100, 33/200] := by
  constructor <;>
    norm_num [getBestOf, bestOfEx, plainTemplate, natMax1, qW, sortStable, ins]

/-! ### Claim C9 — import never throws past its boundary -/

/-- C9: `importTemplates` always returns a `{success, message,
importedCount}` summary (its Lean model is a total function into
`ImportSummary`; the `try/catch` boundary is the `Except`-eliminating
`match`).  A payload that fails to parse, or parses to a non-array value,
yields `success = false` and `importedCount = 0`; an array payload yields
`success = true`; and an incoming record that is `null` or lacks a subject
is skipped without affecting the import of the remaining records. -/
theorem C9_import_boundary (h : Str → Str) (genId : Str) (now : Nat)
    (ex : List Template) :
    (∀ msg, importTemplates h genId now ex (.failure msg)
      = ⟨false, "Import failed: " ++ msg, 0⟩)
    ∧ (importTemplates h genId now ex .nonArray
      = ⟨false, "Import failed: Imported file is not a valid template array.", 0⟩)
    ∧ (∀ l, (importTemplates h genId now ex (.arr l)).success = true)
    ∧ (∀ (bad : Patch) (rest : List (Option Patch)),
        (bad.subject.getD []).isEmpty = true →
        (importTemplates h genId now ex (.arr (some bad :: rest))).importedCount
          = (importTemplates h genId now ex (.arr rest)).importedCount)
    ∧ (∀ rest : List (Option Patch),
        (importTemplates h genId now ex (.arr (none :: rest))).importedCount
          = (importTemplates h genId now ex (.arr rest)).importedCount) := by
  refine ⟨fun msg => rfl, rfl, fun l => rfl, ?_, ?_⟩
  · intro bad rest hbad
    have hloop : importLoop h genId now (some bad :: rest)
        (ex.map (fun t => t.signature))
        = importLoop h genId now rest (ex.map (fun t => t.signature)) := by
      simp only [importLoop]
      rw [if_pos hbad]
    simp only [importTemplates, importTemplatesE, hloop]
  · intro rest
    have hloop : importLoop h genId now (none :: rest)
        (ex.map (fun t => t.signature))
        = importLoop h genId now rest (ex.map (fun t => t.signature)) := rfl
    simp only [importTemplates, importTemplatesE, hloop]

/-- A well-formed incoming import record. -/
def impRec : Patch := { name := some "Cat".data, subject := some "cat".data }

/-- An incoming import record with no subject. -/
def impBad : Patch := { name := some "NoSubject".data }

/-- C9 (witness): the boundary theorem applied at a concrete import — a
record without a subject is skipped and does not change the imported
count of the records after it. -/
theorem C9_witness :
    (impBad.subject.getD []).isEmpty = true ∧
    (importTemplates (fun s => s) "u".data 0 [] (.arr [some impBad, some impRec])).importedCount
      = (importTemplates (fun s => s) "u".data 0 [] (.arr [some impRec])).importedCount :=
  ⟨by decide,
    (C9_import_boundary (fun s => s) "u".data 0 []).2.2.2.1 impBad [some impRec]
      (by decide)⟩

theorem replaceFirst_append_single (p : Template → Bool) (u t : Template)
    (l : List Template) (hl : ∀ x ∈ l, p x = false) (ht : p t = true) :
    replaceFirst p u (l ++ [t]) = l ++ [u] := by
  induction l with
  | nil => simp [replaceFirst, ht]
  | cons y ys ih =>
    have hy : p y = false := hl y (by simp)
    show (if p y = true then u :: (ys ++ [t])
          else y :: replaceFirst p u (ys ++ [t])) = y :: (ys ++ [u])
    rw [hy]
    simp only [Bool.false_eq_true, if_false]
    rw [ih (fun x hx => hl x (by simp [hx]))]

/-! ### Claim C10 — upsert merged tags: sorted union capped at 10 -/

/-- C10: whenever `upsertTemplate` merges into an existing record (the
first record carrying the computed signature), the stored tags are exactly
the first 10, in ascending lexicographic order, of the deduplicated union
of the old tags and the new canonical tags: they are always sorted, never
exceed 10, every stored tag comes from one of the two sides, and tags of
the sorted union beyond the first 10 are dropped. -/
theorem C10_upsert_merged_tags (h : Str → Str) (newId : Str) (now : Nat)
    (data : Patch) (templates : List Template) (existing : Template)
    (hfind : templates.find? (fun t => decide (t.signature = computeSignature h data))
      = some existing) :
    (upsertTemplate h newId now data templates).status = .updated
    ∧ (upsertTemplate h newId now data templates).template.tags
      = (sortStable strLe
          (dedupKeepFirst (existing.tags ++ (normalizeTemplate data).tags))).take 10
    ∧ (upsertTemplate h newId now data templates).template.tags.length ≤ 10
    ∧ ((upsertTemplate h newId now data templates).template.tags).Pairwise
        (fun a b => strLe a b = true)
    ∧ (∀ x ∈ (upsertTemplate h newId now data templates).template.tags,
        x ∈ existing.tags ∨ x ∈ (normalizeTemplate data).tags) := by
  have hout : upsertTemplate h newId now data templates
      = ⟨.updated,
         { existing with
           name := (normalizeTemplate data).name,
           subject := (normalizeTemplate data).subject,
           action := (normalizeTemplate data).action,
           environment := (normalizeTemplate data).environment,
           style := (normalizeTemplate data).style,
           lighting := (normalizeTemplate data).lighting,
           camera := (normalizeTemplate data).camera,
           category := (normalizeTemplate data).category,
           tags := (sortStable strLe
             (dedupKeepFirst (existing.tags ++ (normalizeTemplate data).tags))).take 10,
           updatedAt := now,
           thumbnail := match data.thumbnail with
                        | some v => some v
                        | none => existing.thumbnail,
           quality := some (validateTemplate
             (canonicalToVInput (normalizeTemplate data))).quality,
           variantOf := match data.variantOf with
                        | some v => some v
                        | none => existing.variantOf },
         replaceFirst (fun t => decide (t.signature = computeSignature h data))
           { existing with
             name := (normalizeTemplate data).name,
             subject := (normalizeTemplate data).subject,
             action := (normalizeTemplate data).action,
             environment := (normalizeTemplate data).environment,
             style := (normalizeTemplate data).style,
             lighting := (normalizeTemplate data).lighting,
             camera := (normalizeTemplate data).camera,
             category := (normalizeTemplate data).category,
             tags := (sortStable strLe
               (dedupKeepFirst (existing.tags ++ (normalizeTemplate data).tags))).take 10,
             updatedAt := now,
             thumbnail := match data.thumbnail with
                          | some v => some v
                          | none => existing.thumbnail,
             quality := some (validateTemplate
               (canonicalToVInput (normalizeTemplate data))).quality,
             variantOf := match data.variantOf with
                          | some v => some v
                          | none => existing.variantOf }
           templates⟩ := by
    simp only [upsertTemplate]
    rw [hfind]
  rw [hout]
  refine ⟨rfl, rfl, ?_, ?_, ?_⟩
  · show ((sortStable strLe
      (dedupKeepFirst (existing.tags ++ (normalizeTemplate data).tags))).take 10).length ≤ 10
    rw [List.length_take]
    exact min_le_left _ _
  · show ((sortStable strLe
      (dedupKeepFirst (existing.tags ++ (normalizeTemplate data).tags))).take 10).Pairwise
        (fun a b => strLe a b = true)
    exact List.Pairwise.sublist (List.take_sublist 10 _)
      (pairwise_sortStable strLe strLe_total strLe_trans _)
  · intro x hx
    have hx1 : x ∈ sortStable strLe
        (dedupKeepFirst (existing.tags ++ (normalizeTemplate data).tags)) :=
      List.take_subset 10 _ hx
    have hx2 := (mem_sortStable strLe).mp hx1
    have hx3 := mem_of_mem_dedupKeepFirst hx2
    exact List.mem_append.mp hx3

/-- Old record for the C10/C3 witnesses: a stored template whose signature
is the identity-digest signature of `tagDraft`. -/
def tagDraft : Patch :=
  { name := some "Cat".data, subject := some "a cat".data,
    tags := some ["k".data, "b".data] }

/-- A stored record carrying `tagDraft`'s signature and some old tags. -/
def tagStoreRec : Template :=
  { plainTemplate with
      id := "old".data, tags := ["c".data, "a".data],
      signature := computeSignature (fun s => s) tagDraft,
      createdAt := 3, updatedAt := 4 }

/-- C10 (witness): the merged-tags theorem at a concrete store — the
stored tags come out sorted (`a b c k`) and capped. -/
theorem C10_witness :
    [tagStoreRec].find?
      (fun t => decide (t.signature = computeSignature (fun s => s) tagDraft))
      = some tagStoreRec ∧
    ((upsertTemplate (fun s => s) "new".data 9 tagDraft [tagStoreRec]).status
        = .updated
      ∧ (upsertTemplate (fun s => s) "new".data 9 tagDraft [tagStoreRec]).template.tags
        = (sortStable strLe
            (dedupKeepFirst (tagStoreRec.tags ++ (normalizeTemplate tagDraft).tags))).take 10
      ∧ (upsertTemplate (fun s => s) "new".data 9 tagDraft [tagStoreRec]).template.tags.length ≤ 10
      ∧ ((upsertTemplate (fun s => s) "new".data 9 tagDraft [tagStoreRec]).template.tags).Pairwise
          (fun a b => strLe a b = true)
      ∧ (∀ x ∈ (upsertTemplate (fun s => s) "new".data 9 tagDraft [tagStoreRec]).template.tags,
          x ∈ tagStoreRec.tags ∨ x ∈ (normalizeTemplate tagDraft).tags)) :=
  ⟨by decide,
    C10_upsert_merged_tags (fun s => s) "new".data 9 tagDraft [tagStoreRec]
      tagStoreRec (by decide)⟩

/-! ### Claim C3 — upsert twice with identical canonical content -/

/-- C3 (amended): starting from a store holding no record with the
computed signature, upserting `d1` and then upserting a `d2` with the same
canonical content leaves exactly one record with that signature; that
record keeps the `createdAt` (and zero `usageCount`) established by the
first call, and its tags are the first 10, in ascending lexicographic
order, of the deduplicated union of the two calls' canonical tags. -/
theorem C3_upsert_dedup (h : Str → Str) (id1 id2 : Str) (now1 now2 : Nat)
    (d1 d2 : Patch) (store0 : List Template)
    (hpay : signaturePayload (normalizeTemplate d1)
      = signaturePayload (normalizeTemplate d2))
    (hfresh : ∀ t ∈ store0, t.signature ≠ computeSignature h d1) :
    (upsertTemplate h id1 now1 d1 store0).status = .created
    ∧ (upsertTemplate h id2 now2 d2
        (upsertTemplate h id1 now1 d1 store0).store).status = .updated
    ∧ ((upsertTemplate h id2 now2 d2
        (upsertTemplate h id1 now1 d1 store0).store).store).countP
        (fun t => decide (t.signature = computeSignature h d1)) = 1
    ∧ (upsertTemplate h id2 now2 d2
        (upsertTemplate h id1 now1 d1 store0).store).template.createdAt = now1
    ∧ (upsertTemplate h id2 now2 d2
        (upsertTemplate h id1 now1 d1 store0).store).template.usageCount = 0
    ∧ (upsertTemplate h id2 now2 d2
        (upsertTemplate h id1 now1 d1 store0).store).template.tags
      = (sortStable strLe (dedupKeepFirst
          ((normalizeTemplate d1).tags ++ (normalizeTemplate d2).tags))).take 10 := by
  have hsig2 : computeSignature h d2 = computeSignature h d1 := by
    unfold computeSignature
    rw [hpay]
  have hfind0 : store0.find?
      (fun t => decide (t.signature = computeSignature h d1)) = none :=
    List.find?_eq_none.mpr (fun x hx => by
      simp only [decide_eq_true_eq]
      exact hfresh x hx)
  have h1status : (upsertTemplate h id1 now1 d1 store0).status = .created := by
    simp only [upsertTemplate]
    rw [hfind0]
  have h1store : (upsertTemplate h id1 now1 d1 store0).store
      = store0 ++ [(upsertTemplate h id1 now1 d1 store0).template] := by
    simp only [upsertTemplate]
    rw [hfind0]
  have h1sig : (upsertTemplate h id1 now1 d1 store0).template.signature
      = computeSignature h d1 := by
    simp only [upsertTemplate]
    rw [hfind0]
  have h1created : (upsertTemplate h id1 now1 d1 store0).template.createdAt = now1 := by
    simp only [upsertTemplate]
    rw [hfind0]
  have h1usage : (upsertTemplate h id1 now1 d1 store0).template.usageCount = 0 := by
    simp only [upsertTemplate]
    rw [hfind0]
  have h1tags : (upsertTemplate h id1 now1 d1 store0).template.tags
      = (normalizeTemplate d1).tags := by
    simp only [upsertTemplate]
    rw [hfind0]
  generalize hT : (upsertTemplate h id1 now1 d1 store0).template = T1
    at h1store h1sig h1created h1usage h1tags
  rw [h1store]
  have hfind2 : (store0 ++ [T1]).find?
      (fun t => decide (t.signature = computeSignature h d2)) = some T1 := by
    rw [List.find?_append]
    have hp2none : store0.find?
        (fun t => decide (t.signature = computeSignature h d2)) = none :=
      List.find?_eq_none.mpr (fun x hx => by
        simp only [decide_eq_true_eq, hsig2]
        exact hfresh x hx)
    rw [hp2none]
    have hpt : (fun t => decide (t.signature = computeSignature h d2)) T1 = true := by
      simp only [decide_eq_true_eq, hsig2]
      exact h1sig
    simp [List.find?_cons, hpt]
  refine ⟨h1status, ?_, ?_, ?_, ?_, ?_⟩
  · simp only [upsertTemplate]
    rw [hfind2]
  · have h2store : (upsertTemplate h id2 now2 d2 (store0 ++ [T1])).store
        = replaceFirst (fun t => decide (t.signature = computeSignature h d2))
            (upsertTemplate h id2 now2 d2 (store0 ++ [T1])).template
            (store0 ++ [T1]) := by
      simp only [upsertTemplate]
      rw [hfind2]
    have h2sig : (upsertTemplate h id2 now2 d2 (store0 ++ [T1])).template.signature
        = computeSignature h d1 := by
      have hmid : (upsertTemplate h id2 now2 d2 (store0 ++ [T1])).template.signature
          = T1.signature := by
        simp only [upsertTemplate]
        rw [hfind2]
      rw [hmid, h1sig]
    rw [h2store]
    rw [replaceFirst_append_single _ _ _ _
      (fun x hx => by
        show decide (x.signature = computeSignature h d2) = false
        rw [hsig2]
        exact decide_eq_false (hfresh x hx))
      (by
        show decide (T1.signature = computeSignature h d2) = true
        rw [hsig2]
        exact decide_eq_true h1sig)]
    rw [List.countP_append]
    have h0 : store0.countP
        (fun t => decide (t.signature = computeSignature h d1)) = 0 :=
      List.countP_eq_zero.mpr (fun a ha => by
        simp only [decide_eq_true_eq]
        exact hfresh a ha)
    rw [h0]
    have hu : (fun t => decide (t.signature = computeSignature h d1))
        (upsertTemplate h id2 now2 d2 (store0 ++ [T1])).template = true := by
      simp only [decide_eq_true_eq]
      exact h2sig
    simp [List.countP_cons, hu]
  · have hmid : (upsertTemplate h id2 now2 d2 (store0 ++ [T1])).template.createdAt
        = T1.createdAt := by
      simp only [upsertTemplate]
      rw [hfind2]
    rw [hmid, h1created]
  · have hmid : (upsertTemplate h id2 now2 d2 (store0 ++ [T1])).template.usageCount
        = T1.usageCount := by
      simp only [upsertTemplate]
      rw [hfind2]
    rw [hmid, h1usage]
  · have hmid : (upsertTemplate h id2 now2 d2 (store0 ++ [T1])).template.tags
        = (sortStable strLe (dedupKeepFirst
            (T1.tags ++ (normalizeTemplate d2).tags))).take 10 := by
      simp only [upsertTemplate]
      rw [hfind2]
    rw [hmid, h1tags]

/-- Second call's draft for the C3 witness and counterexample: same
canonical content as `tagDraft`, different tags. -/
def tagDraft2 : Patch :=
  { name := some " Cat ".data, subject := some "A  CAT".data,
    tags := some ["z".data] }

/-- C3 (witness): the dedup theorem at a concrete pair of drafts sharing
canonical content, starting from the empty store. -/
theorem C3_witness :
    signaturePayload (normalizeTemplate tagDraft)
      = signaturePayload (normalizeTemplate tagDraft2) ∧
    ((upsertTemplate (fun s => s) "i1".data 5 tagDraft []).status = .created
      ∧ (upsertTemplate (fun s => s) "i2".data 8 tagDraft2
          (upsertTemplate (fun s => s) "i1".data 5 tagDraft []).store).status = .updated
      ∧ ((upsertTemplate (fun s => s) "i2".data 8 tagDraft2
          (upsertTemplate (fun s => s) "i1".data 5 tagDraft []).store).store).countP
          (fun t => decide (t.signature = computeSignature (fun s => s) tagDraft)) = 1
      ∧ (upsertTemplate (fun s => s) "i2".data 8 tagDraft2
          (upsertTemplate (fun s => s) "i1".data 5 tagDraft []).store).template.createdAt = 5
      ∧ (upsertTemplate (fun s => s) "i2".data 8 tagDraft2
          (upsertTemplate (fun s => s) "i1".data 5 tagDraft []).store).template.usageCount = 0
      ∧ (upsertTemplate (fun s => s) "i2".data 8 tagDraft2
          (upsertTemplate (fun s => s) "i1".data 5 tagDraft []).store).template.tags
        = (sortStable strLe (dedupKeepFirst
            ((normalizeTemplate tagDraft).tags
              ++ (normalizeTemplate tagDraft2).tags))).take 10) :=
  ⟨by decide,
    C3_upsert_dedup (fun s => s) "i1".data "i2".data 5 8 tagDraft tagDraft2 []
      (by decide) (by decide)⟩

/-- First call's draft for the C3 counterexample: ten distinct tags. -/
def capDraft1 : Patch :=
  { name := some "Cat".data, subject := some "a cat".data,
    tags := some ["a".data, "b".data, "c".data, "d".data, "e".data,
                  "f".data, "g".data, "h".data, "i".data, "j".data] }

/-- Second call's draft for the C3 counterexample: one extra tag `z`. -/
def capDraft2 : Patch :=
  { name := some "Cat".data, subject := some "a cat".data,
    tags := some ["z".data] }

/-- C3 (counterexample): the surviving record's tags are *not* the full
set-union of the tags supplied by the two calls — with ten old tags and a
new tag `z`, the sorted union is truncated to 10 entries and `z` is
silently dropped. -/
theorem C3_cex :
    "z".data ∈ (normalizeTemplate capDraft2).tags ∧
    "z".data ∉ (upsertTemplate (fun s => s) "i2".data 8 capDraft2
        (upsertTemplate (fun s => s) "i1".data 5 capDraft1 []).store).template.tags := by
  constructor <;> decide

/-! ### Claim C5 — createdAt immutability / updatedAt monotonicity -/

/-- C5 (amended): the upsert update branch and `updateTemplate` always keep
`createdAt` and set `updatedAt` to the mutation time (hence `≥` the previous
value under a non-decreasing clock).  `updateManyTemplates` does the same
*provided its bulk patch does not itself contain a `createdAt` field* — its
patch type is the full `Partial<Template>`, and a patch value for
`createdAt` overwrites the stored one (see the counterexample). -/
theorem C5_update_timestamps :
    (∀ (h : Str → Str) (newId : Str) (now : Nat) (data : Patch)
        (store : List Template) (existing : Template),
      store.find? (fun t => decide (t.signature = computeSignature h data))
        = some existing →
      (upsertTemplate h newId now data store).template.createdAt = existing.createdAt
      ∧ (upsertTemplate h newId now data store).template.updatedAt = now
      ∧ (existing.updatedAt ≤ now →
          existing.updatedAt ≤ (upsertTemplate h newId now data store).template.updatedAt))
    ∧ (∀ (h : Str → Str) (id : Str) (updates : UpdPatch) (now : Nat)
        (store : List Template) (old r : Template) (store2 : List Template),
      store.find? (fun t => decide (t.id = id)) = some old →
      updateTemplate h id updates now store = some (r, store2) →
      r.createdAt = old.createdAt ∧ r.updatedAt = now
      ∧ (old.updatedAt ≤ now → old.updatedAt ≤ r.updatedAt))
    ∧ (∀ (h : Str → Str) (ids : List Str) (updates : Patch) (now : Nat)
        (store : List Template) (i : Nat) (old : Template),
      updates.createdAt = none → store[i]? = some old →
      ∃ r, (updateManyTemplates h ids updates now store)[i]? = some r
        ∧ r.createdAt = old.createdAt
        ∧ (old.updatedAt ≤ now → old.updatedAt ≤ r.updatedAt)) := by
  refine ⟨?_, ?_, ?_⟩
  · intro h newId now data store existing hfind
    have hc : (upsertTemplate h newId now data store).template.createdAt
        = existing.createdAt := by
      simp only [upsertTemplate]
      rw [hfind]
    have hu : (upsertTemplate h newId now data store).template.updatedAt = now := by
      simp only [upsertTemplate]
      rw [hfind]
    exact ⟨hc, hu, fun hcl => by rw [hu]; exact hcl⟩
  · intro h id updates now store old r store2 hfind hupd
    simp only [updateTemplate] at hupd
    rw [hfind] at hupd
    injection hupd with hpair
    have hr : r = ({ spreadUpdate old
        (normalizeTemplate (templateToPatch (applyPatch old (updPatchToPatch updates))))
        (updPatchToPatch updates) with
      signature := computeSignature h
        (templateToPatch (applyPatch old (updPatchToPatch updates))),
      updatedAt := now,
      quality := some (validateTemplate (canonicalToVInput
        (normalizeTemplate (templateToPatch
          (applyPatch old (updPatchToPatch updates)))))).quality } : Template) := by
      have := congrArg Prod.fst hpair
      exact this.symm
    refine ⟨?_, ?_, ?_⟩
    · rw [hr]
      rfl
    · rw [hr]
    · intro hcl
      rw [hr]
      exact hcl
  · intro h ids updates now store i old hnone hget
    unfold updateManyTemplates
    rw [List.getElem?_map, hget]
    by_cases hmem : old.id ∈ ids
    · refine ⟨_, rfl, ?_, ?_⟩
      · show (if decide (old.id ∈ ids) = true then _ else old).createdAt
          = old.createdAt
        rw [if_pos (decide_eq_true hmem)]
        show updates.createdAt.getD old.createdAt = old.createdAt
        rw [hnone]
        rfl
      · intro hcl
        show old.updatedAt ≤ (if decide (old.id ∈ ids) = true then _ else old).updatedAt
        rw [if_pos (decide_eq_true hmem)]
        exact hcl
    · refine ⟨_, rfl, ?_, ?_⟩
      · show (if decide (old.id ∈ ids) = true then _ else old).createdAt
          = old.createdAt
        rw [if_neg (by simpa using hmem)]
      · intro hcl
        show old.updatedAt ≤ (if decide (old.id ∈ ids) = true then _ else old).updatedAt
        rw [if_neg (by simpa using hmem)]

/-- The stored record the C5 counterexample and witness mutate. -/
def updVictim : Template :=
  { plainTemplate with
      id := "x".data, name := "Cat".data, subject := "cat".data,
      createdAt := 5, updatedAt := 5 }

/-- A bulk patch that (illegitimately, per the spec) carries `createdAt`. -/
def clobberPatch : Patch := { createdAt := some 999 }

/-- A benign bulk patch with no `createdAt`. -/
def benignPatch : Patch := { favorite := some true }

/-- C5 (counterexample): `updateManyTemplates` with a patch containing
`createdAt := 999` rewrites the record's `createdAt` from 5 to 999 — the
claim's unconditional "createdAt is never changed by any rewrite" is false
on the bulk-update path. -/
theorem C5_cex :
    updVictim.createdAt = 5 ∧
    ((updateManyTemplates (fun s => s) ["x".data] clobberPatch 7 [updVictim]).map
      (fun t => t.createdAt)) = [999] := by
  constructor <;> decide

/-- C5 (witness): the amended theorem applied concretely — the upsert
update branch on a matching store, and a bulk update with a
`createdAt`-free patch. -/
theorem C5_witness :
    ([{ plainTemplate with
         signature := computeSignature (fun s => s) tagDraft, createdAt := 5,
         updatedAt := 5 }].find?
      (fun t => decide (t.signature = computeSignature (fun s => s) tagDraft))
      = some { plainTemplate with
         signature := computeSignature (fun s => s) tagDraft, createdAt := 5,
         updatedAt := 5 }) ∧
    benignPatch.createdAt = none ∧
    ((upsertTemplate (fun s => s) "n".data 9 tagDraft
        [{ plainTemplate with
            signature := computeSignature (fun s => s) tagDraft, createdAt := 5,
            updatedAt := 5 }]).template.createdAt = 5
      ∧ (∃ r, (updateManyTemplates (fun s => s) ["x".data] benignPatch 7
            [updVictim])[0]? = some r
          ∧ r.createdAt = updVictim.createdAt
          ∧ (updVictim.updatedAt ≤ 7 → updVictim.updatedAt ≤ r.updatedAt))) :=
  ⟨by decide, rfl,
    ((C5_update_timestamps).1 (fun s => s) "n".data 9 tagDraft
      [{ plainTemplate with
          signature := computeSignature (fun s => s) tagDraft, createdAt := 5,
          updatedAt := 5 }]
      { plainTemplate with
          signature := computeSignature (fun s => s) tagDraft, createdAt := 5,
          updatedAt := 5 } (by decide)).1,
    (C5_update_timestamps).2.2 (fun s => s) ["x".data] benignPatch 7 [updVictim]
      0 updVictim rfl rfl⟩

/-! ### Claim C6 — index add/remove roundtrip -/

theorem mem_setAdd_self {α : Type} [DecidableEq α] (s : List α) (v : α) :
    v ∈ setAdd s v := by
  unfold setAdd
  by_cases h : v ∈ s
  · rwa [if_pos h]
  · rw [if_neg h]
    simp

theorem setAdd_idem {α : Type} [DecidableEq α] (s : List α) (v : α) :
    setAdd (setAdd s v) v = setAdd s v := by
  unfold setAdd
  rw [if_pos]
  exact mem_setAdd_self s v

theorem addAll_point (v : Str) : ∀ (ks : List Str) (m : Str → Option (List Str))
    (k : Str), Store.addAll m ks v k
      = if k ∈ ks then some (setAdd ((m k).getD []) v) else m k := by
  intro ks
  induction ks with
  | nil => intro m k; simp [Store.addAll]
  | cons w ws ih =>
    intro m k
    have hstep : Store.addAll m (w :: ws) v = Store.addAll (Store.mapAdd m w v) ws v := rfl
    rw [hstep, ih]
    by_cases hk : k ∈ ws
    · rw [if_pos hk, if_pos (List.mem_cons_of_mem w hk)]
      unfold Store.mapAdd
      by_cases hkw : k = w
      · rw [if_pos hkw]
        simp [setAdd_idem]
        rw [hkw]
      · rw [if_neg hkw]
    · rw [if_neg hk]
      unfold Store.mapAdd
      by_cases hkw : k = w
      · rw [if_pos hkw, if_pos (by simp [hkw])]
        rw [hkw]
      · rw [if_neg hkw, if_neg (by simp [hkw, hk])]

theorem remOp_idem (v : Str) (o : Option (List Str)) :
    Store.remOp v (Store.remOp v o) = Store.remOp v o := by
  cases o with
  | none => rfl
  | some s =>
    have hbody : Store.remOp v (some s)
        = if (s.filter (fun x => decide (x ≠ v))).isEmpty then none
          else some (s.filter (fun x => decide (x ≠ v))) := rfl
    by_cases he : (s.filter (fun x => decide (x ≠ v))).isEmpty
    · rw [hbody, if_pos he]
      rfl
    · rw [hbody, if_neg he]
      have hff : (s.filter (fun x => decide (x ≠ v))).filter
          (fun x => decide (x ≠ v)) = s.filter (fun x => decide (x ≠ v)) :=
        List.filter_eq_self.mpr (fun a ha => (List.mem_filter.mp ha).2)
      show (if ((s.filter (fun x => decide (x ≠ v))).filter
          (fun x => decide (x ≠ v))).isEmpty then none
        else some ((s.filter (fun x => decide (x ≠ v))).filter
          (fun x => decide (x ≠ v)))) = _
      rw [hff, if_neg he]

theorem removeAll_point (v : Str) : ∀ (ks : List Str)
    (m : Str → Option (List Str)) (k : Str),
    Store.removeAll m ks v k = if k ∈ ks then Store.remOp v (m k) else m k := by
  intro ks
  induction ks with
  | nil => intro m k; simp [Store.removeAll]
  | cons w ws ih =>
    intro m k
    have hstep : Store.removeAll m (w :: ws) v
        = Store.removeAll (Store.mapRemove m w v) ws v := rfl
    rw [hstep, ih]
    by_cases hk : k ∈ ws
    · rw [if_pos hk, if_pos (List.mem_cons_of_mem w hk)]
      unfold Store.mapRemove
      by_cases hkw : k = w
      · rw [if_pos hkw, remOp_idem]
        rw [hkw]
      · rw [if_neg hkw]
    · rw [if_neg hk]
      unfold Store.mapRemove
      by_cases hkw : k = w
      · rw [if_pos hkw, if_pos (by simp [hkw])]
        rw [hkw]
      · rw [if_neg hkw, if_neg (by simp [hkw, hk])]

theorem addRemove_roundtrip (v : Str) (ks : List Str)
    (m : Str → Option (List Str))
    (hm : ∀ k s, m k = some s → v ∉ s ∧ s ≠ []) (k : Str) :
    Store.removeAll (Store.addAll m ks v) ks v k = m k := by
  rw [removeAll_point, addAll_point]
  by_cases hk : k ∈ ks
  · rw [if_pos hk, if_pos hk]
    cases hmk : m k with
    | none =>
      show Store.remOp v (some (setAdd [] v)) = none
      simp [Store.remOp, setAdd]
    | some s =>
      obtain ⟨hv, hne⟩ := hm k s hmk
      show Store.remOp v (some (setAdd s v)) = some s
      unfold setAdd
      rw [if_neg hv]
      show (if ((s ++ [v]).filter (fun x => decide (x ≠ v))).isEmpty then none
        else some ((s ++ [v]).filter (fun x => decide (x ≠ v)))) = some s
      have hf : (s ++ [v]).filter (fun x => decide (x ≠ v)) = s := by
        rw [List.filter_append]
        have h1 : s.filter (fun x => decide (x ≠ v)) = s :=
          List.filter_eq_self.mpr (fun a ha => decide_eq_true (fun hav => hv (hav ▸ ha)))
        have h2 : ([v] : List Str).filter (fun x => decide (x ≠ v)) = [] := by simp
        rw [h1, h2, List.append_nil]
      rw [hf]
      rw [if_neg (by simpa [List.isEmpty_iff] using hne)]
  · rw [if_neg hk, if_neg hk]

/-- C6 (amended): for every template and every index state in which the
template's signature occurs nowhere (no posting set contains it, no bucket
is empty, and it has no metadata entry), `addEntry` followed by
`removeEntry` restores all four maps exactly, pointwise — in particular no
key is left bound to an empty set.  The freshness precondition is
necessary: see the counterexample for an index that already contains the
signature. -/
theorem C6_index_roundtrip (t : Template) (idx : Store.BuiltIndex)
    (hterm : ∀ k s, idx.term k = some s → t.signature ∉ s ∧ s ≠ [])
    (htag : ∀ k s, idx.tag k = some s → t.signature ∉ s ∧ s ≠ [])
    (hcat : ∀ k s, idx.cat k = some s → t.signature ∉ s ∧ s ≠ [])
    (hmeta : idx.meta t.signature = none) :
    (∀ k, (Store.removeFromIndex t (Store.addToIndex t idx)).term k = idx.term k)
    ∧ (∀ k, (Store.removeFromIndex t (Store.addToIndex t idx)).tag k = idx.tag k)
    ∧ (∀ k, (Store.removeFromIndex t (Store.addToIndex t idx)).cat k = idx.cat k)
    ∧ (∀ k, (Store.removeFromIndex t (Store.addToIndex t idx)).meta k = idx.meta k) := by
  by_cases hsig : t.signature.isEmpty
  · have hadd : Store.addToIndex t idx = idx := by
      unfold Store.addToIndex
      rw [if_pos hsig]
    have hrem : Store.removeFromIndex t idx = idx := by
      unfold Store.removeFromIndex
      rw [if_pos hsig]
    rw [hadd, hrem]
    exact ⟨fun k => rfl, fun k => rfl, fun k => rfl, fun k => rfl⟩
  · have hadd : Store.addToIndex t idx =
        { term := Store.addAll idx.term (Store.tokenize (Store.templText t)) t.signature,
          tag := Store.addAll idx.tag (t.tags.map toLowerStr) t.signature,
          cat := Store.addAll idx.cat
            [toLowerStr (jsOrS t.category "uncategorized".data)] t.signature,
          meta := fun q =>
            if q = t.signature then
              some ⟨t.name, t.quality.getD .Amber, t.tags,
                    jsOrS t.category "uncategorized".data, (Store.templText t).length⟩
            else idx.meta q } := by
      unfold Store.addToIndex
      rw [if_neg hsig]
    have hrem : ∀ j : Store.BuiltIndex, Store.removeFromIndex t j =
        { term := Store.removeAll j.term (Store.tokenize (Store.templText t)) t.signature,
          tag := Store.removeAll j.tag (t.tags.map toLowerStr) t.signature,
          cat := Store.removeAll j.cat
            [toLowerStr (jsOrS t.category "uncategorized".data)] t.signature,
          meta := fun q => if q = t.signature then none else j.meta q } := by
      intro j
      unfold Store.removeFromIndex
      rw [if_neg hsig]
    rw [hadd, hrem]
    refine ⟨?_, ?_, ?_, ?_⟩
    · exact addRemove_roundtrip t.signature _ idx.term hterm
    · exact addRemove_roundtrip t.signature _ idx.tag htag
    · exact addRemove_roundtrip t.signature _ idx.cat hcat
    · intro k
      show (if k = t.signature then none
        else if k = t.signature then some _ else idx.meta k) = idx.meta k
      by_cases hk : k = t.signature
      · rw [if_pos hk, hk, hmeta]
      · rw [if_neg hk, if_neg hk]

/-- The all-empty index. -/
def emptyIdx : Store.BuiltIndex :=
  { term := fun _ => none, tag := fun _ => none,
    cat := fun _ => none, meta := fun _ => none }

/-- A concrete template for exercising the index roundtrip. -/
def idxTempl : Template :=
  { plainTemplate with
      name := "T".data, subject := "red car".data, tags := ["Fast".data],
      category := "Cars".data, signature := "sig1".data }

/-- C6 (witness): the roundtrip theorem applied to the empty index and a
concrete template (freshness hypotheses hold vacuously there). -/
theorem C6_witness :
    emptyIdx.meta idxTempl.signature = none ∧
    ((∀ k, (Store.removeFromIndex idxTempl (Store.addToIndex idxTempl emptyIdx)).term k
        = emptyIdx.term k)
      ∧ (∀ k, (Store.removeFromIndex idxTempl (Store.addToIndex idxTempl emptyIdx)).tag k
        = emptyIdx.tag k)
      ∧ (∀ k, (Store.removeFromIndex idxTempl (Store.addToIndex idxTempl emptyIdx)).cat k
        = emptyIdx.cat k)
      ∧ (∀ k, (Store.removeFromIndex idxTempl (Store.addToIndex idxTempl emptyIdx)).meta k
        = emptyIdx.meta k)) :=
  ⟨rfl,
    C6_index_roundtrip idxTempl emptyIdx
      (fun _ _ h => Option.noConfusion h) (fun _ _ h => Option.noConfusion h)
      (fun _ _ h => Option.noConfusion h) rfl⟩

/-- An index that already contains the template's signature under the
term "red". -/
def dupIdx : Store.BuiltIndex :=
  { term := fun k => if k = "red".data then some ["s1".data] else none,
    tag := fun _ => none, cat := fun _ => none, meta := fun _ => none }

/-- The template whose signature is already indexed in `dupIdx`. -/
def dupTempl : Template :=
  { plainTemplate with subject := "red".data, signature := "s1".data }

/-- C6 (counterexample): the claim quantifies over *every* index state, but
when the signature is already present under a term, adding is a no-op on
that set while removing deletes it — the posting list for "red" does not
return to its pre-add state. -/
theorem C6_cex :
    dupIdx.term "red".data = some ["s1".data] ∧
    (Store.removeFromIndex dupTempl (Store.addToIndex dupTempl dupIdx)).term "red".data
      = none := by
  constructor <;> decide

/-! ### Claim C1 — search AND semantics over indexed query terms -/

theorem mem_filterBySet (acc : List Str) (m : List (Str × List Str)) (k x : Str)
    (hx : x ∈ Search.filterBySet acc m k) : x ∈ acc := by
  unfold Search.filterBySet at hx
  cases h : Search.alook m k with
  | none => rw [h] at hx; simp at hx
  | some hits =>
    rw [h] at hx
    exact (List.mem_filter.mp hx).1

theorem mem_foldl_filterBySet (m : List (Str × List Str)) :
    ∀ (tags acc : List Str) (x : Str),
      x ∈ tags.foldl (fun acc tg => Search.filterBySet acc m tg) acc → x ∈ acc := by
  intro tags
  induction tags with
  | nil => intro acc x hx; simpa using hx
  | cons tg tgs ih =>
    intro acc x hx
    rw [List.foldl_cons] at hx
    exact mem_filterBySet acc m tg x (ih _ x hx)

theorem scoreEntry_sig (idx : Search.BuiltIndexS) (p : Search.SearchParams)
    (sig : Str) (r : Search.SearchResultItem)
    (h : Search.scoreEntry idx p sig = some r) : r.signature = sig := by
  unfold Search.scoreEntry at h
  cases hm : Search.alook idx.meta sig with
  | none =>
    rw [hm] at h
    exact absurd h (by simp)
  | some m =>
    rw [hm] at h
    have h' : (if p.minQuality = some Quality.Green ∧ m.quality ≠ Quality.Green then none
      else if p.minQuality = some Quality.Amber ∧ m.quality = Quality.Red then none
      else if (3/20 : ℚ) ≤ Search.entryScore idx p sig m then
        some (⟨sig, m.name, Search.entryScore idx p sig m, m.quality, m.tags,
          m.category⟩ : Search.SearchResultItem)
      else none) = some r := h
    by_cases h1 : p.minQuality = some Quality.Green ∧ m.quality ≠ Quality.Green
    · rw [if_pos h1] at h'
      exact Option.noConfusion h'
    · rw [if_neg h1] at h'
      by_cases h2 : p.minQuality = some Quality.Amber ∧ m.quality = Quality.Red
      · rw [if_pos h2] at h'
        exact Option.noConfusion h'
      · rw [if_neg h2] at h'
        by_cases h3 : (3/20 : ℚ) ≤ Search.entryScore idx p sig m
        · rw [if_pos h3] at h'
          injection h' with h4
          rw [← h4]
        · rw [if_neg h3] at h'
          exact Option.noConfusion h'

theorem mem_baseCandidates_all (idx : Search.BuiltIndexS) (p : Search.SearchParams)
    (sig : Str) (hmem : sig ∈ Search.baseCandidates idx p)
    (hq : Search.qTermsOf p ≠ []) :
    ∀ hs ∈ (Search.qTermsOf p).filterMap (Search.alook idx.term), sig ∈ hs := by
  unfold Search.baseCandidates at hmem
  have hq' : (!(Search.qTermsOf p).isEmpty) = true := by
    simp [List.isEmpty_iff, hq]
  rw [if_pos hq'] at hmem
  cases hth : (Search.qTermsOf p).filterMap (Search.alook idx.term) with
  | nil =>
    rw [hth] at hmem
    simp at hmem
  | cons h0 rest =>
    rw [hth] at hmem
    have h1 := mem_of_mem_dedupKeepFirst hmem
    have h2 := (List.mem_filter.mp h1).2
    rw [List.all_eq_true] at h2
    intro hs hhs
    exact of_decide_eq_true (h2 hs hhs)

/-- C1 (amended): with a non-empty text query, `searchTemplates` returns
only signatures that appear in the posting list of every query token *that
is present in the term index* — tokens with no posting list are silently
ignored by the `.filter(Boolean)` over the terms' lookups rather than
forcing an empty result (see the counterexample). -/
theorem C1_search_and_semantics (idx : Search.BuiltIndexS)
    (p : Search.SearchParams) (w : Str) (s : List Str)
    (hw : w ∈ Search.qTermsOf p)
    (hs : Search.alook idx.term w = some s) :
    ∀ r ∈ Search.searchTemplates idx p, r.signature ∈ s := by
  intro r hr
  have hq : Search.qTermsOf p ≠ [] := by
    intro hnil
    rw [hnil] at hw
    simp at hw
  have hr1 : r ∈ (Search.candidatesOf idx p).filterMap (Search.scoreEntry idx p) := by
    unfold Search.searchTemplates at hr
    have h1 := List.take_subset _ _ hr
    exact (mem_sortStable _).mp h1
  obtain ⟨sig, hsigmem, hsome⟩ := List.mem_filterMap.mp hr1
  have hrs : r.signature = sig := scoreEntry_sig idx p sig r hsome
  simp only [Search.candidatesOf] at hsigmem
  have hbase : sig ∈ Search.baseCandidates idx p := by
    by_cases hcat : (!(Search.categoryOf p).isEmpty) = true
    · rw [if_pos hcat] at hsigmem
      have h2 := mem_filterBySet _ _ _ _ hsigmem
      by_cases htg : (!(Search.tagSetOf p).isEmpty) = true
      · rw [if_pos htg] at h2
        exact mem_foldl_filterBySet idx.tag _ _ sig h2
      · rw [if_neg htg] at h2
        exact h2
    · rw [if_neg hcat] at hsigmem
      by_cases htg : (!(Search.tagSetOf p).isEmpty) = true
      · rw [if_pos htg] at hsigmem
        exact mem_foldl_filterBySet idx.tag _ _ sig hsigmem
      · rw [if_neg htg] at hsigmem
        exact hsigmem
  have hall := mem_baseCandidates_all idx p sig hbase hq
  have hsmem : s ∈ (Search.qTermsOf p).filterMap (Search.alook idx.term) :=
    List.mem_filterMap.mpr ⟨w, hw, hs⟩
  rw [hrs]
  exact hall s hsmem

/-- Metadata of the single indexed template in the C1 scenario. -/
def cexMeta : Search.DocMetaS :=
  { name := "T1".data, quality := Quality.Green, tags := [],
    category := "cars".data, textLen := 3, updatedAt := 0 }

/-- An index holding one signature `s1`, reachable only via the term
"red". -/
def cexIdx : Search.BuiltIndexS :=
  { term := [("red".data, ["s1".data])], tag := [], cat := [],
    meta := [("s1".data, cexMeta)] }

/-- The query "red zzz": its second token has no posting list. -/
def cexParams : Search.SearchParams := { q := some "red zzz".data }

/-- The result row produced for `s1` on the query "red zzz":
textMatch 1/2 · 0.6 + quality 0.1 · 0.1 + length bonus 0.05 = 9/25. -/
def cexItem : Search.SearchResultItem :=
  { signature := "s1".data, name := "T1".data, score := 9/25,
    quality := Quality.Green, tags := [], category := "cars".data }

/-- C1 (counterexample): on the query "red zzz", the token "zzz" has no
posting list, yet the template matching only "red" is returned — a result
that matches only a proper subset of the query's tokens, contradicting the
claim as stated. -/
theorem C1_cex :
    "zzz".data ∈ Search.qTermsOf cexParams ∧
    Search.alook cexIdx.term "zzz".data = none ∧
    (Search.searchTemplates cexIdx cexParams).map (fun r => r.signature)
      = ["s1".data] := by
  refine ⟨by decide, by decide, ?_⟩
  have hcand : Search.candidatesOf cexIdx cexParams = ["s1".data] := by decide
  have hm : Search.alook cexIdx.meta "s1".data = some cexMeta := by decide
  have hcount : Search.termMatchCount cexIdx cexParams "s1".data = 1 := by decide
  have hlen : (Search.qTermsOf cexParams).length = 2 := by decide
  have hqne : (!(Search.qTermsOf cexParams).isEmpty) = true := by decide
  have htagne : (!(Search.tagSetOf cexParams).isEmpty) = false := by decide
  have hcatne : (!(Search.categoryOf cexParams).isEmpty) = false := by decide
  have hscore : Search.entryScore cexIdx cexParams "s1".data cexMeta = 9/25 := by
    unfold Search.entryScore
    rw [hcount, hlen, if_pos hqne]
    rw [if_neg (by simp [htagne])]
    rw [if_neg (by simp [htagne, hcatne])]
    rw [if_pos (show cexMeta.quality = Quality.Green from rfl)]
    rw [if_pos (show cexMeta.textLen > 0 by decide)]
    rw [if_pos (show cexMeta.textLen < 160 by decide)]
    norm_num [Search.clamp, min_def, max_def]
  have hsc : Search.scoreEntry cexIdx cexParams "s1".data = some cexItem := by
    unfold Search.scoreEntry
    rw [hm]
    show (if cexParams.minQuality = some Quality.Green ∧ cexMeta.quality ≠ Quality.Green
        then none
      else if cexParams.minQuality = some Quality.Amber ∧ cexMeta.quality = Quality.Red
        then none
      else if (3/20 : ℚ) ≤ Search.entryScore cexIdx cexParams "s1".data cexMeta then
        some (⟨"s1".data, cexMeta.name,
          Search.entryScore cexIdx cexParams "s1".data cexMeta, cexMeta.quality,
          cexMeta.tags, cexMeta.category⟩ : Search.SearchResultItem)
      else none) = some cexItem
    rw [if_neg (by simp [cexParams])]
    rw [if_neg (by simp [cexParams])]
    rw [hscore]
    rw [if_pos (by norm_num)]
    rfl
  simp only [Search.searchTemplates, hcand]
  simp only [List.filterMap_cons, List.filterMap_nil, hsc]
  simp [sortStable, ins, cexItem, cexParams]

/-- C1 (witness): the amended AND-semantics theorem applied at the
concrete index — every result of the query "red zzz" lies in the posting
list of the indexed token "red". -/
theorem C1_witness :
    "red".data ∈ Search.qTermsOf cexParams ∧
    Search.alook cexIdx.term "red".data = some ["s1".data] ∧
    (∀ r ∈ Search.searchTemplates cexIdx cexParams,
      r.signature ∈ (["s1".data] : List Str)) :=
  ⟨by decide, by decide,
    C1_search_and_semantics cexIdx cexParams "red".data ["s1".data]
      (by decide) (by decide)⟩

end IPC
